import Mathlib

/-!
# ExportRGBD: a shallow embedding of `export.cpp`

The program reads an Azure Kinect recording, writes one cropped colour PNG and
one cropped depth PNG per capture, then rewinds the recording and writes the
inertial samples to `imu.txt`.

Modelling conventions.

* Every call into the recording reader, the filesystem helpers and the log
  stream is represented by the value it returns; those values are the fields
  of `World`.  A run of `main` is a pure function from a `World` to the exit
  status together with the ordered list of calls it made (`Event`).
* C `int` values are mathematical integers; the result of `-` and `/` on
  `int` is reduced to 32 bits by `wrapInt`.
* `uint64_t` timestamps are natural numbers; no arithmetic is done on them.
* `float` components of an inertial sample are carried as their 32-bit
  patterns; the text produced by `ostream << float` is a parameter (`fmt`).
* The two streams of the recording are given as the payloads returned by the
  successive successful fetches, followed by the first non-success result.
  The loops never fetch again after a non-success result.
* Console output (`printf`) and the get/release pairs on `k4a_image_t`
  handles inside `getRGB`/`getDepth` are not traced.
* OpenCV raises `cv::Exception` in `m(roi)` when the rectangle is not a valid
  region of `m`, and in `cv::imwrite` when the image is empty.  `main` has no
  handler, so the run ends there: no clean-up label is reached and `main`
  returns no value (`thrown`).  A `cv::imwrite` on a non-empty image returns;
  it leaves a file when the target directory exists.
* The buffer of a colour image is not empty, so `cv::imdecode` returns; when
  the data cannot be decoded it returns an empty image (0 rows, 0 columns).
-/

namespace ExportRGBD

/-! ## C `int` arithmetic -/

/-- Smallest value of a 32-bit `int`. -/
def INT_MIN : Int := -2147483648

/-- Largest value of a 32-bit `int`. -/
def INT_MAX : Int := 2147483647

/-- Reduction of an integer to the 32-bit two's-complement range. -/
def wrapInt (x : Int) : Int := (x + 2147483648) % 4294967296 - 2147483648

/-- C `a - b` on `int`. -/
def intSub (a b : Int) : Int := wrapInt (a - b)

/-- C `a / b` on `int`: the quotient is truncated toward zero. -/
def intDiv (a b : Int) : Int := wrapInt (Int.tdiv a b)

/-! ## Values of the recording SDK (`k4atypes.h`) -/

/-- Enumerator `K4A_RESULT_SUCCEEDED` of `k4a_result_t`. -/
def K4A_RESULT_SUCCEEDED : Int := 0

/-- Enumerator `K4A_RESULT_FAILED` of `k4a_result_t`. -/
def K4A_RESULT_FAILED : Int := 1

/-- Type `k4a_stream_result_t`. -/
inductive StreamResult where
  | SUCCEEDED
  | FAILED
  | EOF
  deriving DecidableEq, Repr

/-! ## Data model -/

/-- Dimensions of a `cv::Mat`: `size[0]` is `rows`, `size[1]` is `cols`. -/
structure Mat where
  rows : Int
  cols : Int
  deriving DecidableEq, Repr

/-- A `cv::Rect`. -/
structure Rect where
  x : Int
  y : Int
  width : Int
  height : Int
  deriving DecidableEq, Repr

/-- Colour image of a capture: the dimensions `cv::imdecode` yields for its
buffer and its device timestamp in microseconds. -/
structure ColorImage where
  cols : Int
  rows : Int
  device_timestamp_usec : Nat
  deriving DecidableEq, Repr

/-- One capture of the recording, with the results of the calls made on it:
`color` is `none` when `k4a_capture_get_color_image` returns null, `depth` is
`false` when `k4a_capture_get_depth_image` returns null, `createOk` is the
result of `k4a_image_create` and `transformOk` that of
`k4a_transformation_depth_image_to_color_camera`. -/
structure Capture where
  color : Option ColorImage
  depth : Bool
  createOk : Bool
  transformOk : Bool
  deriving DecidableEq, Repr

/-- A `k4a_float3_t`, components as 32-bit patterns. -/
structure Float3 where
  v0 : Nat
  v1 : Nat
  v2 : Nat
  deriving DecidableEq, Repr

/-- A `k4a_imu_sample_t` (the fields the program reads). -/
structure ImuSample where
  acc_timestamp_usec : Nat
  acc_sample : Float3
  gyro_timestamp_usec : Nat
  gyro_sample : Float3
  deriving DecidableEq, Repr

/-- The first non-success result of `k4a_playback_get_next_capture`:
`failed` distinguishes `K4A_STREAM_RESULT_FAILED` from `K4A_STREAM_RESULT_EOF`,
`nullsHandle` tells whether the call stored null in the capture handle. -/
structure StreamEnd where
  failed : Bool
  nullsHandle : Bool
  deriving DecidableEq, Repr

/-- The two output subdirectories. -/
inductive Dir where
  | rgb
  | depth
  deriving DecidableEq, Repr

/-- Which of the two output subdirectories exist. -/
structure Dirs where
  rgb : Bool
  depth : Bool
  deriving DecidableEq, Repr

/-- Calls made by `main`, each with its result. Capture handles are identified
by the index of the fetch that returned them. `imwrite` stands for a
`cv::imwrite(path, src(roi))` that returns, `cvException` for one that raises
`cv::Exception`. -/
inductive Event where
  | usage
  | playbackOpen (ok : Bool)
  | recordingLength
  | getCalibration (ok : Bool)
  | seekTimestamp (ok : Bool)
  | transformationCreate
  | dirExists (d : Dir) (present : Bool)
  | createDirectories (d : Dir) (ok : Bool)
  | getNextCapture (r : StreamResult) (handle : Option Nat)
  | getRGB (ret : Int) (timestamp : Nat)
  | getDepth (ret : Int)
  | imwrite (d : Dir) (name : String) (src : Mat) (roi : Rect)
  | cvException (src : Mat) (roi : Rect)
  | captureRelease (handle : Nat)
  | ofOpen (ok : Bool)
  | getNextImuSample (r : StreamResult)
  | ofAppend (text : String)
  | ofClose
  | playbackClose
  deriving DecidableEq, Repr

/-- Everything a run of `main` receives from outside. `rgbFiles0` and
`depthFiles0` are the names of the PNG files under `rgb/` and `depth/` when
`main` starts; they are read only when the directory exists. -/
structure World where
  argc : Int
  crop_width : Int
  crop_height : Int
  openOk : Bool
  calibOk : Bool
  seek1Ok : Bool
  rgbDirExists : Bool
  depthDirExists : Bool
  rgbFiles0 : List String
  depthFiles0 : List String
  createRgbOk : Bool
  createDepthOk : Bool
  captures : List Capture
  captureEnd : StreamEnd
  seek2Ok : Bool
  imuOpenOk : Bool
  samples : List ImuSample
  imuEndFailed : Bool
  deriving Repr

/-- Local variables of `main` that live across iterations of the first loop. -/
structure Locals where
  capture : Option Nat
  frame_idx : Nat
  timestamp : Nat
  rgb : Mat
  depth : Mat
  deriving DecidableEq, Repr

/-- Result of the first loop: `failed` records that `goto error_capture` was
taken, `thrown` that a `cv::Exception` left the loop. -/
structure LoopOut where
  ret : Int
  failed : Bool
  thrown : Bool
  capture : Option Nat
  trace : List Event
  deriving Repr

/-- Result of a run: exit status, calls made, the directory state left by the
directory set-up, and whether a `cv::Exception` ended the run. When `thrown`
holds `main` has not returned and `ret` is only the last value of the
variable. -/
structure Run where
  ret : Int
  trace : List Event
  dirs : Dirs
  thrown : Bool
  deriving Repr

/-! ## The functions of `export.cpp` -/

/-- Function `getRGB`: returns the status, the decoded image and the
timestamp; both outputs keep their previous value on failure. -/
def getRGB (capture : Capture) (rgb : Mat) (timestamp : Nat) : Int × Mat × Nat :=
  match capture.color with
  | none => (K4A_RESULT_FAILED, rgb, timestamp)
  | some img => (K4A_RESULT_SUCCEEDED, ⟨img.rows, img.cols⟩, img.device_timestamp_usec)

/-- Function `getDepth`: returns the status and the aligned depth image, which
has `rgb_height` rows and `rgb_width` columns. -/
def getDepth (capture : Capture) (rgb_width rgb_height : Int) (depth : Mat) : Int × Mat :=
  if capture.depth = false then (-1, depth)
  else if capture.createOk = false then (K4A_RESULT_FAILED, depth)
  else if capture.transformOk = false then (K4A_RESULT_FAILED, depth)
  else (K4A_RESULT_SUCCEEDED, ⟨rgb_height, rgb_width⟩)

/-- A rectangle is a valid region of a frame. -/
def roiValid (m : Mat) (r : Rect) : Bool :=
  decide (0 ≤ r.x) && decide (0 ≤ r.y) && decide (0 ≤ r.width) && decide (0 ≤ r.height)
    && decide (r.x + r.width ≤ m.cols) && decide (r.y + r.height ≤ m.rows)

/-- Dimensions of the sub-image `m(roi)` of OpenCV (`cv::Mat::operator()` on a
`cv::Rect`): defined when the rectangle is a valid region of `m`, and then
`roi.height` rows by `roi.width` columns. -/
def matRoi (m : Mat) (r : Rect) : Option Mat :=
  if roiValid m r then some ⟨r.height, r.width⟩ else none

/-- The statement `cv::imwrite(path, m(roi))` raises `cv::Exception`: `m(roi)`
does when the rectangle is not a valid region of `m`, `cv::imwrite` does when
the sub-image has no pixel. -/
def writeThrows (m : Mat) (roi : Rect) : Bool :=
  match matRoi m roi with
  | none => true
  | some sub => sub.rows == 0 || sub.cols == 0

/-- Lines 189-191 of `main`: `crop_left`, `crop_top` and `roi`. -/
def cropRoi (rgb : Mat) (crop_width crop_height : Int) : Rect :=
  let crop_left := intDiv (intSub rgb.cols crop_width) 2
  let crop_top := intDiv (intSub rgb.rows crop_height) 2
  ⟨crop_left, crop_top, crop_width, crop_height⟩

/-- File name of lines 192-193: `std::to_string(timestamp) + ".png"`. -/
def pngName (timestamp : Nat) : String := toString timestamp ++ ".png"

/-- The first `while` loop of `main` (lines 172-206). -/
def captureLoop (crop_width crop_height : Int) (e : StreamEnd) :
    List Capture → Int → Locals → LoopOut
  | [], ret, l =>
    let capture := if e.nullsHandle then none else l.capture
    if e.failed then
      ⟨K4A_RESULT_FAILED, true, false, capture,
        [Event.getNextCapture StreamResult.FAILED capture]⟩
    else
      ⟨ret, false, false, capture, [Event.getNextCapture StreamResult.EOF capture]⟩
  | c :: cs, ret, l =>
    let h := l.frame_idx
    let r1 := getRGB c l.rgb l.timestamp
    let rgb := r1.2.1
    let timestamp := r1.2.2
    if r1.1 ≠ K4A_RESULT_SUCCEEDED ∨ timestamp = 0 then
      ⟨K4A_RESULT_FAILED, true, false, some h,
        [Event.getNextCapture StreamResult.SUCCEEDED (some h), Event.getRGB r1.1 timestamp]⟩
    else
      let r2 := getDepth c rgb.cols rgb.rows l.depth
      let depth := r2.2
      if r2.1 ≠ K4A_RESULT_SUCCEEDED then
        ⟨K4A_RESULT_FAILED, true, false, some h,
          [Event.getNextCapture StreamResult.SUCCEEDED (some h), Event.getRGB r1.1 timestamp,
           Event.getDepth r2.1]⟩
      else
        let roi := cropRoi rgb crop_width crop_height
        if writeThrows rgb roi then
          ⟨ret, false, true, some h,
            [Event.getNextCapture StreamResult.SUCCEEDED (some h), Event.getRGB r1.1 timestamp,
             Event.getDepth r2.1, Event.cvException rgb roi]⟩
        else if writeThrows depth roi then
          ⟨ret, false, true, some h,
            [Event.getNextCapture StreamResult.SUCCEEDED (some h), Event.getRGB r1.1 timestamp,
             Event.getDepth r2.1,
             Event.imwrite Dir.rgb (pngName timestamp) rgb roi,
             Event.cvException depth roi]⟩
        else
          let out := captureLoop crop_width crop_height e cs ret
            ⟨some h, l.frame_idx + 1, timestamp, rgb, depth⟩
          ⟨out.ret, out.failed, out.thrown, out.capture,
            [Event.getNextCapture StreamResult.SUCCEEDED (some h), Event.getRGB r1.1 timestamp,
             Event.getDepth r2.1,
             Event.imwrite Dir.rgb (pngName timestamp) rgb roi,
             Event.imwrite Dir.depth (pngName timestamp) depth roi,
             Event.captureRelease h] ++ out.trace⟩

/-- Text appended to `imu.txt` for one sample (lines 228-238). -/
def imuLine (fmt : Nat → String) (s : ImuSample) : String :=
  toString s.acc_timestamp_usec ++ " "
    ++ fmt s.acc_sample.v0 ++ " " ++ fmt s.acc_sample.v1 ++ " " ++ fmt s.acc_sample.v2 ++ " "
    ++ toString s.gyro_timestamp_usec ++ " "
    ++ fmt s.gyro_sample.v0 ++ " " ++ fmt s.gyro_sample.v1 ++ " " ++ fmt s.gyro_sample.v2 ++ " "
    ++ "\n"

/-- The second `while` loop of `main` (lines 223-251). -/
def imuLoop (fmt : Nat → String) (endFailed : Bool) : List ImuSample → Int → Int × List Event
  | [], ret =>
    if endFailed then (K4A_RESULT_FAILED, [Event.getNextImuSample StreamResult.FAILED])
    else (ret, [Event.getNextImuSample StreamResult.EOF])
  | s :: ss, ret =>
    let out := imuLoop fmt endFailed ss ret
    (out.1, Event.getNextImuSample StreamResult.SUCCEEDED :: Event.ofAppend (imuLine fmt s) :: out.2)

/-- Lines 158-170 of `main`: returns whether the block was left without
`goto`, the directory state and the calls made. A successful
`createDirectories` leaves the directory present. -/
def setupDirs (fs : Dirs) (createRgbOk createDepthOk : Bool) : Bool × Dirs × List Event :=
  if fs.rgb = false then
    if createRgbOk = false then
      (false, fs, [Event.dirExists Dir.rgb false, Event.createDirectories Dir.rgb false])
    else if createDepthOk = false then
      (false, ⟨true, fs.depth⟩,
        [Event.dirExists Dir.rgb false, Event.createDirectories Dir.rgb true,
         Event.createDirectories Dir.depth false])
    else
      (true, ⟨true, true⟩,
        [Event.dirExists Dir.rgb false, Event.createDirectories Dir.rgb true,
         Event.createDirectories Dir.depth true])
  else
    (true, fs, [Event.dirExists Dir.rgb true])

/-- Label `error_open_playback`: the recording is closed when the handle is
not null. -/
def error_open_playback (playback_handle : Bool) (ret : Int) (tr : List Event) (fs : Dirs) : Run :=
  ⟨ret, tr ++ (if playback_handle then [Event.playbackClose] else []), fs, false⟩

/-- The statement `if (capture) k4a_capture_release(capture);`. -/
def releaseCapture (capture : Option Nat) : List Event :=
  match capture with
  | some h => [Event.captureRelease h]
  | none => []

/-- Label `error_capture`, falling through to `error_open_playback`. It is
only reached with the recording open. -/
def error_capture (capture : Option Nat) (ret : Int) (tr : List Event) (fs : Dirs) : Run :=
  error_open_playback true ret (tr ++ releaseCapture capture) fs

/-- Label `error_imu_out`, falling through to `error_capture`. -/
def error_imu_out (capture : Option Nat) (ret : Int) (tr : List Event) (fs : Dirs) : Run :=
  error_capture capture ret (tr ++ [Event.ofClose]) fs

/-- Lines 172-261 of `main`: both loops and the clean-up labels, entered with
the calls `t` already made and the directory state `fs`. When a
`cv::Exception` leaves the first loop nothing further is executed. -/
def passes (fmt : Nat → String) (w : World) (t : List Event) (fs : Dirs) : Run :=
  let out := captureLoop w.crop_width w.crop_height w.captureEnd w.captures
    K4A_RESULT_SUCCEEDED ⟨none, 0, 0, ⟨0, 0⟩, ⟨0, 0⟩⟩
  let t1 := t ++ out.trace
  if out.thrown then ⟨out.ret, t1, fs, true⟩
  else if out.failed then error_capture out.capture out.ret t1 fs
  else if w.seek2Ok = false then
    error_open_playback true K4A_RESULT_FAILED (t1 ++ [Event.seekTimestamp false]) fs
  else if w.imuOpenOk = false then
    error_imu_out out.capture out.ret (t1 ++ [Event.seekTimestamp true, Event.ofOpen false]) fs
  else
    let r := imuLoop fmt w.imuEndFailed w.samples out.ret
    error_imu_out out.capture r.1 (t1 ++ [Event.seekTimestamp true, Event.ofOpen true] ++ r.2) fs

/-- Function `main` (lines 104-170, then `passes`). -/
def main (fmt : Nat → String) (w : World) : Run :=
  let fs0 : Dirs := ⟨w.rgbDirExists, w.depthDirExists⟩
  if w.argc ≠ 5 then ⟨-1, [Event.usage], fs0, false⟩
  else if w.openOk = false then
    error_open_playback false K4A_RESULT_FAILED [Event.playbackOpen false] fs0
  else if w.calibOk = false then
    error_open_playback true K4A_RESULT_FAILED
      [Event.playbackOpen true, Event.recordingLength, Event.getCalibration false] fs0
  else if w.seek1Ok = false then
    error_open_playback true K4A_RESULT_FAILED
      [Event.playbackOpen true, Event.recordingLength, Event.getCalibration true,
       Event.seekTimestamp false] fs0
  else
    let t0 := [Event.playbackOpen true, Event.recordingLength, Event.getCalibration true,
       Event.seekTimestamp true, Event.transformationCreate]
    let s := setupDirs fs0 w.createRgbOk w.createDepthOk
    if s.1 = false then
      error_open_playback true K4A_RESULT_SUCCEEDED (t0 ++ s.2.2) s.2.1
    else
      passes fmt w (t0 ++ s.2.2) s.2.1

/-! ## Observations on a trace and predicates on captures -/

/-- Whether the event is an image write. -/
def isImwrite : Event → Bool
  | Event.imwrite _ _ _ _ => true
  | _ => false

/-- Whether the event is a seek of the recording. -/
def isSeek : Event → Bool
  | Event.seekTimestamp _ => true
  | _ => false

/-- Whether the event is a call on `imu.txt` or a fetch of an inertial
sample. -/
def isImuPass : Event → Bool
  | Event.ofOpen _ => true
  | Event.getNextImuSample _ => true
  | Event.ofAppend _ => true
  | Event.ofClose => true
  | _ => false

/-- Names of the files written into directory `d`, in order. -/
def namesWritten (d : Dir) (tr : List Event) : List String :=
  tr.filterMap fun e =>
    match e with
    | Event.imwrite d1 name _ _ => if d1 = d then some name else none
    | _ => none

/-- Texts appended to `imu.txt`, in order. -/
def appendedTexts (tr : List Event) : List String :=
  tr.filterMap fun e =>
    match e with
    | Event.ofAppend text => some text
    | _ => none

/-- Handles returned by successful capture fetches, in order. -/
def fetchedHandles (tr : List Event) : List Nat :=
  tr.filterMap fun e =>
    match e with
    | Event.getNextCapture StreamResult.SUCCEEDED (some h) => some h
    | _ => none

/-- Handles passed to `k4a_capture_release`, in order. -/
def releasedHandles (tr : List Event) : List Nat :=
  tr.filterMap fun e =>
    match e with
    | Event.captureRelease h => some h
    | _ => none

/-- Events by which the first loop reports a failure: `getRGB` failing or
yielding timestamp zero, `getDepth` failing, or a fetch returning
`K4A_STREAM_RESULT_FAILED`. -/
def extractionFailure : Event → Bool
  | Event.getRGB ret timestamp => ret != K4A_RESULT_SUCCEEDED || timestamp == 0
  | Event.getDepth ret => ret != K4A_RESULT_SUCCEEDED
  | Event.getNextCapture r _ => r == StreamResult.FAILED
  | _ => false

/-- Events only the first loop and the capture release produce. -/
def ofCaptureLoop : Event → Bool
  | Event.getNextCapture _ _ => true
  | Event.getRGB _ _ => true
  | Event.getDepth _ => true
  | Event.imwrite _ _ _ _ => true
  | Event.captureRelease _ => true
  | Event.cvException _ _ => true
  | _ => false

/-- Events only the second loop produces. -/
def ofImuLoop : Event → Bool
  | Event.getNextImuSample _ => true
  | Event.ofAppend _ => true
  | _ => false

/-- Events produced before the first loop is entered. -/
def ofPrelude : Event → Bool
  | Event.usage => true
  | Event.playbackOpen _ => true
  | Event.recordingLength => true
  | Event.getCalibration _ => true
  | Event.seekTimestamp _ => true
  | Event.transformationCreate => true
  | Event.dirExists _ _ => true
  | Event.createDirectories _ _ => true
  | _ => false

/-- A capture on which an iteration of the first loop, run with crop size
`W x H`, runs to its end: colour image present with non-zero timestamp, depth
image present, both steps of the depth alignment succeed, and the two writes
raise no exception. -/
def procOk (W H : Int) (c : Capture) : Bool :=
  match c.color with
  | none => false
  | some img =>
    img.device_timestamp_usec != 0 && c.depth && c.createOk && c.transformOk
      && !writeThrows ⟨img.rows, img.cols⟩ (cropRoi ⟨img.rows, img.cols⟩ W H)

/-- A capture on which an iteration of the first loop, run with crop size
`W x H`, ends by a `cv::Exception`: everything before the writes succeeds and
the crop rectangle is not a valid region of the frame or has no pixel. -/
def throwsAt (W H : Int) (c : Capture) : Bool :=
  match c.color with
  | none => false
  | some img =>
    img.device_timestamp_usec != 0 && c.depth && c.createOk && c.transformOk
      && writeThrows ⟨img.rows, img.cols⟩ (cropRoi ⟨img.rows, img.cols⟩ W H)

/-- A capture with both images and a non-zero colour timestamp. -/
def hasBoth (c : Capture) : Bool :=
  match c.color with
  | none => false
  | some img => img.device_timestamp_usec != 0 && c.depth

/-- Colour timestamp of a capture (0 when it has no colour image). -/
def tsOf (c : Capture) : Nat :=
  match c.color with
  | none => 0
  | some img => img.device_timestamp_usec

/-- The centred crop rectangle in the words of the specification:
`left = (colorWidth - W)/2`, `top = (colorHeight - H)/2`, size `W x H`, the
operations being those of C `int`. -/
def specCropRect (colorWidth colorHeight W H : Int) : Rect :=
  ⟨intDiv (intSub colorWidth W) 2, intDiv (intSub colorHeight H) 2, W, H⟩

/-- The two image writes the specification prescribes for a capture: the
colour and the depth image, under the same name, cropped by the same
rectangle. -/
def expectedWrites (W H : Int) (c : Capture) : List Event :=
  match c.color with
  | none => []
  | some img =>
    [Event.imwrite Dir.rgb (pngName img.device_timestamp_usec) ⟨img.rows, img.cols⟩
        (specCropRect img.cols img.rows W H),
     Event.imwrite Dir.depth (pngName img.device_timestamp_usec) ⟨img.rows, img.cols⟩
        (specCropRect img.cols img.rows W H)]

/-- The run enters the first loop: four user arguments, and open, calibration
read, first seek and directory set-up all succeed. -/
def setupOk (w : World) : Bool :=
  w.argc == 5 && w.openOk && w.calibOk && w.seek1Ok
    && (w.rgbDirExists || (w.createRgbOk && w.createDepthOk))

/-- Calls made before the first loop when the set-up succeeds. -/
def setupTrace (w : World) : List Event :=
  [Event.playbackOpen true, Event.recordingLength, Event.getCalibration true,
   Event.seekTimestamp true, Event.transformationCreate]
  ++ (setupDirs ⟨w.rgbDirExists, w.depthDirExists⟩ w.createRgbOk w.createDepthOk).2.2

/-- Directory state left by the set-up. -/
def setupState (w : World) : Dirs :=
  (setupDirs ⟨w.rgbDirExists, w.depthDirExists⟩ w.createRgbOk w.createDepthOk).2.1

/-- The first loop as `main` runs it: `ret` still `K4A_RESULT_SUCCEEDED`,
`capture` null, `frame_idx` and `timestamp` zero, both images empty. -/
def loopOut (w : World) : LoopOut :=
  captureLoop w.crop_width w.crop_height w.captureEnd w.captures
    K4A_RESULT_SUCCEEDED ⟨none, 0, 0, ⟨0, 0⟩, ⟨0, 0⟩⟩

/-- C `isspace` in the default locale: space, `\t`, `\n`, `\v`, `\f`, `\r`. -/
def isSpace (c : Char) : Bool :=
  c.toNat == 32 || (decide (9 ≤ c.toNat) && decide (c.toNat ≤ 13))

/-- Splitting of a character list at white space: `cur` is the field being
read, in reverse; empty fields are dropped. -/
def fieldsAux : List Char → List Char → List (List Char)
  | [], cur => if cur = [] then [] else [cur.reverse]
  | c :: cs, cur =>
    if isSpace c then
      (if cur = [] then fieldsAux cs [] else cur.reverse :: fieldsAux cs [])
    else fieldsAux cs (c :: cur)

/-- The white-space-separated fields of a text. -/
def fields (s : String) : List String := (fieldsAux s.data []).map String.mk

/-- A non-empty text without white space. -/
def isToken (s : String) : Bool := !s.data.isEmpty && s.data.all (fun c => !isSpace c)

/-- Results of the inertial-sample fetches, in order. -/
def imuFetches (tr : List Event) : List StreamResult :=
  tr.filterMap fun e =>
    match e with
    | Event.getNextImuSample r => some r
    | _ => none

/-- Events by which a fatal condition other than a directory-creation failure
shows in a trace: the usage line, a failed open, calibration read or seek, a
failure of the first loop, or an inertial fetch returning
`K4A_STREAM_RESULT_FAILED`. -/
def fatalEvent (ev : Event) : Bool :=
  extractionFailure ev ||
    match ev with
    | Event.usage => true
    | Event.playbackOpen ok => !ok
    | Event.getCalibration ok => !ok
    | Event.seekTimestamp ok => !ok
    | Event.getNextImuSample r => r == StreamResult.FAILED
    | _ => false

/-! ## Concrete runs -/

/-- A 1280 x 720 capture with the given timestamp on which every call
succeeds. -/
def goodCapture (timestamp : Nat) : Capture := ⟨some ⟨1280, 720, timestamp⟩, true, true, true⟩

/-- A 1280 x 720 capture without depth image. -/
def noDepthCapture (timestamp : Nat) : Capture :=
  ⟨some ⟨1280, 720, timestamp⟩, false, true, true⟩

/-- One inertial sample. -/
def demoSample : ImuSample := ⟨1000250, ⟨1, 2, 3⟩, 1000251, ⟨4, 5, 6⟩⟩

/-- A run in which every call succeeds: crop 640 x 480, no output directory
present at start, two captures, one inertial sample. -/
def demoWorld : World :=
  ⟨5, 640, 480, true, true, true, false, false, [], [], true, true,
    [goodCapture 1000033, goodCapture 1033366], ⟨false, true⟩, true, true, [demoSample], false⟩

/-- As `demoWorld`, but the creation of `rgb/` fails. -/
def dirFailWorld : World :=
  ⟨5, 640, 480, true, true, true, false, false, [], [], false, true,
    [goodCapture 1000033, goodCapture 1033366], ⟨false, true⟩, true, true, [demoSample], false⟩

/-- As `demoWorld`, but `rgb/` is present at start and `depth/` is not. -/
def rgbOnlyWorld : World :=
  ⟨5, 640, 480, true, true, true, true, false, [], [], true, true,
    [goodCapture 1000033, goodCapture 1033366], ⟨false, true⟩, true, true, [demoSample], false⟩

/-- As `demoWorld`, but the second of three captures has no depth image. -/
def missingDepthWorld : World :=
  ⟨5, 640, 480, true, true, true, false, false, [], [], true, true,
    [goodCapture 1000033, noDepthCapture 1033366, goodCapture 1066699], ⟨false, true⟩,
    true, true, [demoSample], false⟩

/-- A recording with no capture and no inertial sample, every call
succeeding. -/
def emptyWorld : World :=
  ⟨5, 640, 480, true, true, true, false, false, [], [], true, true, [], ⟨false, true⟩, true, true, [],
    false⟩

/-- Value of a decimal digit character. -/
def digitVal (c : Char) : Nat := c.toNat - 48

/-- Number denoted by a list of decimal digits, most significant first. -/
def decimalValue (l : List Char) : Nat := l.foldl (fun acc c => 10 * acc + digitVal c) 0

/-- As `demoWorld`, but the end-of-file fetch does not store null in the
capture handle. -/
def staleHandleWorld : World :=
  ⟨5, 640, 480, true, true, true, false, false, [], [], true, true,
    [goodCapture 1000033, goodCapture 1033366], ⟨false, false⟩, true, true, [demoSample], false⟩

/-- As `demoWorld`, but with crop size 2000 x 2000, larger than the
1280 x 720 frames. -/
def bigCropWorld : World :=
  ⟨5, 2000, 2000, true, true, true, false, false, [], [], true, true,
    [goodCapture 1000033, goodCapture 1033366], ⟨false, true⟩, true, true, [demoSample], false⟩

/-- As `demoWorld`, but both captures carry the same colour timestamp. -/
def sameTimestampWorld : World :=
  ⟨5, 640, 480, true, true, true, false, false, [], [], true, true,
    [goodCapture 1000033, goodCapture 1000033], ⟨false, true⟩, true, true, [demoSample], false⟩

/-- As `demoWorld`, but `rgb/` and `depth/` are present at start, `rgb/`
holding a file `old.png` and `depth/` none. -/
def staleFileWorld : World :=
  ⟨5, 640, 480, true, true, true, true, true, ["old.png"], [], true, true,
    [goodCapture 1000033, goodCapture 1033366], ⟨false, true⟩, true, true, [demoSample], false⟩

/-- Whether a directory is present in a directory state. -/
def Dirs.has (fs : Dirs) : Dir → Bool
  | Dir.rgb => fs.rgb
  | Dir.depth => fs.depth

/-- Names of the PNG files under a directory when `main` starts (none when
the directory does not exist). -/
def initialFiles (w : World) : Dir → List String
  | Dir.rgb => if w.rgbDirExists then w.rgbFiles0 else []
  | Dir.depth => if w.depthDirExists then w.depthFiles0 else []

/-- Names of the PNG files under a directory after the run: a `cv::imwrite`
that returns creates or overwrites the file when the directory exists and
leaves nothing when it does not; no file is ever removed. -/
def filesUnder (w : World) (r : Run) (d : Dir) : List String :=
  if r.dirs.has d then (initialFiles w d ++ namesWritten d r.trace).dedup else []

/-- Names present both under `rgb/` and under `depth/` after the run. -/
def pngPairs (w : World) (r : Run) : List String :=
  (filesUnder w r Dir.rgb).filter (fun n => decide (n ∈ filesUnder w r Dir.depth))

/-- The first capture of a stream on which an iteration of the first loop
does not run to its end. -/
def firstBad (W H : Int) (cs : List Capture) : Option Capture :=
  (cs.dropWhile (procOk W H)).head?

/-! ## Lemmas on the two loops -/

theorem filter_nil_of_forall {p q : Event → Bool} {tr : List Event}
    (h : ∀ ev ∈ tr, q ev = true) (hpq : ∀ ev, q ev = true → p ev = false) :
    tr.filter p = [] := by
  rw [List.filter_eq_nil_iff]
  intro ev hev
  simp [hpq ev (h ev hev)]

theorem captureLoop_imwrites (W H : Int) (e : StreamEnd) (cs : List Capture) (ret : Int)
    (l : Locals) :
    (captureLoop W H e cs ret l).trace.filter isImwrite
      = (cs.takeWhile (procOk W H)).flatMap (expectedWrites W H) := by
  induction cs generalizing l with
  | nil => cases h : e.failed <;> simp [captureLoop, h, isImwrite]
  | cons c cs ih =>
    rcases c with ⟨_ | img, d, co, tok⟩
    · simp [captureLoop, getRGB, procOk, isImwrite, K4A_RESULT_FAILED, K4A_RESULT_SUCCEEDED]
    · by_cases hts : img.device_timestamp_usec = 0
      · simp [captureLoop, getRGB, procOk, isImwrite, hts]
      · cases hw : writeThrows ⟨img.rows, img.cols⟩ (cropRoi ⟨img.rows, img.cols⟩ W H) <;>
          cases d <;> cases co <;> cases tok <;>
          simp [captureLoop, getRGB, getDepth, procOk, isImwrite, hts, hw, ih, expectedWrites,
            K4A_RESULT_FAILED, K4A_RESULT_SUCCEEDED, specCropRect]
        simp [cropRoi]

theorem captureLoop_events (W H : Int) (e : StreamEnd) (cs : List Capture) (ret : Int)
    (l : Locals) : ∀ ev ∈ (captureLoop W H e cs ret l).trace, ofCaptureLoop ev = true := by
  induction cs generalizing l with
  | nil => cases h : e.failed <;> simp [captureLoop, h, ofCaptureLoop]
  | cons c cs ih =>
    unfold captureLoop
    simp only
    split
    · simp [ofCaptureLoop]
    · split
      · simp [ofCaptureLoop]
      · split
        · simp [ofCaptureLoop]
        · split
          · simp [ofCaptureLoop]
          · intro ev hev
            simp only [List.mem_append, List.mem_cons, List.mem_singleton, List.not_mem_nil,
              or_false] at hev
            rcases hev with (h | h | h | h | h | h) | h
            all_goals first | exact ih _ ev h | (subst h; rfl)

theorem captureLoop_failed (W H : Int) (e : StreamEnd) (cs : List Capture) (ret : Int)
    (l : Locals) :
    (captureLoop W H e cs ret l).failed
      = (match firstBad W H cs with
         | some c => !throwsAt W H c
         | none => e.failed) := by
  induction cs generalizing l with
  | nil => cases h : e.failed <;> simp [captureLoop, h, firstBad]
  | cons c cs ih =>
    rcases c with ⟨_ | img, d, co, tok⟩
    · simp [captureLoop, getRGB, procOk, throwsAt, firstBad, K4A_RESULT_FAILED,
        K4A_RESULT_SUCCEEDED]
    · by_cases hts : img.device_timestamp_usec = 0
      · simp [captureLoop, getRGB, procOk, throwsAt, firstBad, hts]
      · have hts1 : (img.device_timestamp_usec != 0) = true := by simpa [bne_iff_ne] using hts
        cases hw : writeThrows ⟨img.rows, img.cols⟩ (cropRoi ⟨img.rows, img.cols⟩ W H) <;>
          cases d <;> cases co <;> cases tok <;>
          simp [captureLoop, getRGB, getDepth, procOk, throwsAt, firstBad, hts, hts1, hw,
            K4A_RESULT_FAILED, K4A_RESULT_SUCCEEDED]
        simpa [firstBad] using ih _

theorem captureLoop_thrown (W H : Int) (e : StreamEnd) (cs : List Capture) (ret : Int)
    (l : Locals) :
    (captureLoop W H e cs ret l).thrown
      = (match firstBad W H cs with
         | some c => throwsAt W H c
         | none => false) := by
  induction cs generalizing l with
  | nil => cases h : e.failed <;> simp [captureLoop, h, firstBad]
  | cons c cs ih =>
    rcases c with ⟨_ | img, d, co, tok⟩
    · simp [captureLoop, getRGB, procOk, throwsAt, firstBad, K4A_RESULT_FAILED,
        K4A_RESULT_SUCCEEDED]
    · by_cases hts : img.device_timestamp_usec = 0
      · simp [captureLoop, getRGB, procOk, throwsAt, firstBad, hts]
      · have hts1 : (img.device_timestamp_usec != 0) = true := by simpa [bne_iff_ne] using hts
        cases hw : writeThrows ⟨img.rows, img.cols⟩ (cropRoi ⟨img.rows, img.cols⟩ W H) <;>
          cases d <;> cases co <;> cases tok <;>
          simp [captureLoop, getRGB, getDepth, procOk, throwsAt, firstBad, hts, hts1, hw,
            K4A_RESULT_FAILED, K4A_RESULT_SUCCEEDED]
        simpa [firstBad] using ih _

theorem captureLoop_ret (W H : Int) (e : StreamEnd) (cs : List Capture) (ret : Int)
    (l : Locals) :
    (captureLoop W H e cs ret l).ret
      = if (captureLoop W H e cs ret l).failed then K4A_RESULT_FAILED else ret := by
  induction cs generalizing l with
  | nil => cases h : e.failed <;> simp [captureLoop, h]
  | cons c cs ih =>
    rcases c with ⟨_ | img, d, co, tok⟩
    · simp [captureLoop, getRGB, K4A_RESULT_FAILED, K4A_RESULT_SUCCEEDED]
    · by_cases hts : img.device_timestamp_usec = 0
      · simp [captureLoop, getRGB, hts]
      · cases hw : writeThrows ⟨img.rows, img.cols⟩ (cropRoi ⟨img.rows, img.cols⟩ W H) <;>
          cases d <;> cases co <;> cases tok <;>
          simp [captureLoop, getRGB, getDepth, hts, hw, ih,
            K4A_RESULT_FAILED, K4A_RESULT_SUCCEEDED]

theorem captureLoop_failure_event (W H : Int) (e : StreamEnd) (cs : List Capture) (ret : Int)
    (l : Locals) :
    (captureLoop W H e cs ret l).trace.any extractionFailure
      = (captureLoop W H e cs ret l).failed := by
  induction cs generalizing l with
  | nil => cases h : e.failed <;> simp [captureLoop, h, extractionFailure]
  | cons c cs ih =>
    rcases c with ⟨_ | img, d, co, tok⟩
    · simp [captureLoop, getRGB, extractionFailure, K4A_RESULT_FAILED, K4A_RESULT_SUCCEEDED]
    · by_cases hts : img.device_timestamp_usec = 0
      · simp [captureLoop, getRGB, hts, extractionFailure]
      · cases hw : writeThrows ⟨img.rows, img.cols⟩ (cropRoi ⟨img.rows, img.cols⟩ W H) <;>
          cases d <;> cases co <;> cases tok <;>
          simp [captureLoop, getRGB, getDepth, hts, hw, ih, extractionFailure,
            K4A_RESULT_FAILED, K4A_RESULT_SUCCEEDED,
            (by decide : (StreamResult.SUCCEEDED == StreamResult.FAILED) = false)]

theorem captureLoop_capture_none (W H : Int) (e : StreamEnd) (cs : List Capture) (ret : Int)
    (l : Locals) (hn : e.nullsHandle = true)
    (hf : (captureLoop W H e cs ret l).failed = false)
    (ht : (captureLoop W H e cs ret l).thrown = false) :
    (captureLoop W H e cs ret l).capture = none := by
  induction cs generalizing l with
  | nil => cases h : e.failed <;> simp [captureLoop, h, hn]
  | cons c cs ih =>
    rcases c with ⟨_ | img, d, co, tok⟩
    · simp [captureLoop, getRGB, K4A_RESULT_FAILED, K4A_RESULT_SUCCEEDED] at hf
    · by_cases hts : img.device_timestamp_usec = 0
      · simp [captureLoop, getRGB, hts] at hf
      · cases hw : writeThrows ⟨img.rows, img.cols⟩ (cropRoi ⟨img.rows, img.cols⟩ W H) <;>
          cases d <;> cases co <;> cases tok <;>
          simp [captureLoop, getRGB, getDepth, hts, hw,
            K4A_RESULT_FAILED, K4A_RESULT_SUCCEEDED] at hf ht ⊢
        exact ih _ hf ht

theorem releasedHandles_append (a b : List Event) :
    releasedHandles (a ++ b) = releasedHandles a ++ releasedHandles b := by
  simp [releasedHandles, List.filterMap_append]

theorem fetchedHandles_append (a b : List Event) :
    fetchedHandles (a ++ b) = fetchedHandles a ++ fetchedHandles b := by
  simp [fetchedHandles, List.filterMap_append]

theorem captureLoop_handles (W H : Int) (e : StreamEnd) (cs : List Capture) (ret : Int)
    (l : Locals) (hn : e.nullsHandle = true)
    (ht : (captureLoop W H e cs ret l).thrown = false) :
    releasedHandles ((captureLoop W H e cs ret l).trace
        ++ releaseCapture (captureLoop W H e cs ret l).capture)
      = fetchedHandles (captureLoop W H e cs ret l).trace
    ∧ ∃ n, fetchedHandles (captureLoop W H e cs ret l).trace = List.range' l.frame_idx n := by
  induction cs generalizing l with
  | nil =>
    cases h : e.failed <;>
      simp [captureLoop, h, hn, releasedHandles, fetchedHandles, releaseCapture]
  | cons c cs ih =>
    rcases c with ⟨_ | img, d, co, tok⟩
    · simp only [captureLoop, getRGB, K4A_RESULT_FAILED, K4A_RESULT_SUCCEEDED]
      refine ⟨by simp [releasedHandles, fetchedHandles, releaseCapture], 1, ?_⟩
      simp [fetchedHandles]
    · by_cases hts : img.device_timestamp_usec = 0
      · simp only [captureLoop, getRGB, hts]
        refine ⟨by simp [releasedHandles, fetchedHandles, releaseCapture], 1, ?_⟩
        simp [fetchedHandles]
      · cases d
        · simp only [captureLoop, getRGB, getDepth, hts, K4A_RESULT_FAILED, K4A_RESULT_SUCCEEDED]
          refine ⟨by simp [releasedHandles, fetchedHandles, releaseCapture], 1, ?_⟩
          simp [fetchedHandles]
        cases co
        · simp only [captureLoop, getRGB, getDepth, hts, K4A_RESULT_FAILED, K4A_RESULT_SUCCEEDED]
          refine ⟨by simp [releasedHandles, fetchedHandles, releaseCapture], 1, ?_⟩
          simp [fetchedHandles]
        cases tok
        · simp only [captureLoop, getRGB, getDepth, hts, K4A_RESULT_FAILED, K4A_RESULT_SUCCEEDED]
          refine ⟨by simp [releasedHandles, fetchedHandles, releaseCapture], 1, ?_⟩
          simp [fetchedHandles]
        cases hw : writeThrows ⟨img.rows, img.cols⟩ (cropRoi ⟨img.rows, img.cols⟩ W H)
        · simp only [captureLoop, getRGB, getDepth, hts, hw, K4A_RESULT_FAILED,
            K4A_RESULT_SUCCEEDED, reduceCtorEq, or_self, or_false, ite_false, if_false,
            Bool.false_eq_true, ne_eq, not_true_eq_false, List.append_assoc] at ht ⊢
          obtain ⟨h1, n, h2⟩ := ih ⟨some l.frame_idx, l.frame_idx + 1,
            img.device_timestamp_usec, ⟨img.rows, img.cols⟩, ⟨img.rows, img.cols⟩⟩ ht
          rw [releasedHandles_append, fetchedHandles_append, h1, h2]
          refine ⟨by simp [releasedHandles, fetchedHandles], n + 1, ?_⟩
          simp [fetchedHandles, List.range'_succ]
        · exfalso
          simp [captureLoop, getRGB, getDepth, hts, hw, K4A_RESULT_FAILED,
            K4A_RESULT_SUCCEEDED] at ht

theorem imuLoop_events (fmt : Nat → String) (f : Bool) (ss : List ImuSample) (ret : Int) :
    ∀ ev ∈ (imuLoop fmt f ss ret).2, ofImuLoop ev = true := by
  induction ss with
  | nil => cases f <;> simp [imuLoop, ofImuLoop]
  | cons s ss ih =>
    intro ev hev
    simp only [imuLoop, List.mem_cons] at hev
    rcases hev with h | h | h
    · subst h; rfl
    · subst h; rfl
    · exact ih ev h

theorem imuLoop_ret (fmt : Nat → String) (f : Bool) (ss : List ImuSample) (ret : Int) :
    (imuLoop fmt f ss ret).1 = if f then K4A_RESULT_FAILED else ret := by
  induction ss with
  | nil => cases f <;> simp [imuLoop]
  | cons s ss ih => simpa [imuLoop] using ih

theorem imuLoop_texts (fmt : Nat → String) (f : Bool) (ss : List ImuSample) (ret : Int) :
    appendedTexts (imuLoop fmt f ss ret).2 = ss.map (imuLine fmt) := by
  induction ss with
  | nil => cases f <;> simp [imuLoop, appendedTexts]
  | cons s ss ih =>
    simp only [appendedTexts] at ih
    simp [imuLoop, appendedTexts, ih]

/-! ## Lemmas on `main` -/

theorem setupDirs_events (fs : Dirs) (a b : Bool) :
    ∀ ev ∈ (setupDirs fs a b).2.2, ofPrelude ev = true := by
  cases hr : fs.rgb <;> cases a <;> cases b <;> simp [setupDirs, hr, ofPrelude]

theorem setupDirs_ok (fs : Dirs) (a b : Bool) :
    (setupDirs fs a b).1 = (fs.rgb || (a && b)) := by
  cases hr : fs.rgb <;> cases a <;> cases b <;> simp [setupDirs, hr]

theorem setupTrace_events (w : World) : ∀ ev ∈ setupTrace w, ofPrelude ev = true := by
  intro ev hev
  simp only [setupTrace, List.mem_append, List.mem_cons, List.mem_singleton,
    List.not_mem_nil, or_false] at hev
  rcases hev with (h | h | h | h | h) | h
  all_goals first | exact setupDirs_events _ _ _ ev h | (subst h; rfl)

theorem main_of_setupOk (fmt : Nat → String) (w : World) (h : setupOk w = true) :
    main fmt w = passes fmt w (setupTrace w) (setupState w) := by
  simp only [setupOk, Bool.and_eq_true, beq_iff_eq] at h
  obtain ⟨⟨⟨⟨h1, h2⟩, h3⟩, h4⟩, h5⟩ := h
  have hs := setupDirs_ok ⟨w.rgbDirExists, w.depthDirExists⟩ w.createRgbOk w.createDepthOk
  simp only [] at hs
  rw [h5] at hs
  simp [main, h1, h2, h3, h4, hs, setupTrace, setupState]

theorem main_of_not_setupOk (fmt : Nat → String) (w : World) (h : setupOk w = false) :
    ∀ ev ∈ (main fmt w).trace, ofPrelude ev = true ∨ ev = Event.playbackClose := by
  have hs := setupDirs_ok ⟨w.rgbDirExists, w.depthDirExists⟩ w.createRgbOk w.createDepthOk
  have hev := setupDirs_events ⟨w.rgbDirExists, w.depthDirExists⟩ w.createRgbOk w.createDepthOk
  simp only [] at hs
  unfold main
  simp only
  split
  · simp [ofPrelude]
  · rename_i h1
    split
    · simp [error_open_playback, ofPrelude]
    · rename_i h2
      split
      · simp [error_open_playback, ofPrelude]
      · rename_i h3
        split
        · simp [error_open_playback, ofPrelude]
        · rename_i h4
          split
          · intro ev hmem
            simp only [error_open_playback, if_true, List.mem_append, List.mem_cons,
              List.mem_singleton, List.not_mem_nil, or_false] at hmem
            rcases hmem with ((h | h | h | h | h) | h) | h
            all_goals first
              | exact Or.inl (hev ev h)
              | exact Or.inr h
              | (subst h; exact Or.inl rfl)
          · rename_i h5
            exfalso
            simp only [ne_eq, Decidable.not_not, Bool.not_eq_false] at h1 h2 h3 h4 h5
            rw [hs] at h5
            simp [setupOk, h1, h2, h3, h4, h5] at h

theorem passes_eq (fmt : Nat → String) (w : World) (t : List Event) (fs : Dirs) :
    passes fmt w t fs =
      if (loopOut w).thrown then
        ⟨(loopOut w).ret, t ++ (loopOut w).trace, fs, true⟩
      else if (loopOut w).failed then
        ⟨(loopOut w).ret,
          t ++ (loopOut w).trace ++ releaseCapture (loopOut w).capture ++ [Event.playbackClose],
          fs, false⟩
      else if w.seek2Ok = false then
        ⟨K4A_RESULT_FAILED,
          t ++ (loopOut w).trace ++ [Event.seekTimestamp false, Event.playbackClose], fs, false⟩
      else if w.imuOpenOk = false then
        ⟨(loopOut w).ret,
          t ++ (loopOut w).trace ++ [Event.seekTimestamp true, Event.ofOpen false, Event.ofClose]
            ++ releaseCapture (loopOut w).capture ++ [Event.playbackClose], fs, false⟩
      else
        ⟨(imuLoop fmt w.imuEndFailed w.samples (loopOut w).ret).1,
          t ++ (loopOut w).trace ++ [Event.seekTimestamp true, Event.ofOpen true]
            ++ (imuLoop fmt w.imuEndFailed w.samples (loopOut w).ret).2 ++ [Event.ofClose]
            ++ releaseCapture (loopOut w).capture ++ [Event.playbackClose], fs, false⟩ := by
  unfold passes loopOut
  simp only [error_imu_out, error_capture, error_open_playback, if_true]
  split_ifs <;> simp [List.append_assoc]

theorem loopOut_imwrites (w : World) :
    (loopOut w).trace.filter isImwrite
      = (w.captures.takeWhile (procOk w.crop_width w.crop_height)).flatMap
          (expectedWrites w.crop_width w.crop_height) :=
  captureLoop_imwrites _ _ _ _ _ _

theorem loopOut_events (w : World) : ∀ ev ∈ (loopOut w).trace, ofCaptureLoop ev = true :=
  captureLoop_events _ _ _ _ _ _

theorem loopOut_failed (w : World) :
    (loopOut w).failed
      = (match firstBad w.crop_width w.crop_height w.captures with
         | some c => !throwsAt w.crop_width w.crop_height c
         | none => w.captureEnd.failed) :=
  captureLoop_failed _ _ _ _ _ _

theorem loopOut_thrown (w : World) :
    (loopOut w).thrown
      = (match firstBad w.crop_width w.crop_height w.captures with
         | some c => throwsAt w.crop_width w.crop_height c
         | none => false) :=
  captureLoop_thrown _ _ _ _ _ _

theorem firstBad_split (W H : Int) (pre post : List Capture) (c : Capture)
    (hpre : ∀ p ∈ pre, procOk W H p = true) (hc : procOk W H c = false) :
    firstBad W H (pre ++ c :: post) = some c := by
  induction pre with
  | nil => simp [firstBad, List.dropWhile, hc]
  | cons p pre ih =>
    have hp : procOk W H p = true := hpre p (List.mem_cons_self _ _)
    have := ih (fun q hq => hpre q (List.mem_cons_of_mem _ hq))
    simpa [firstBad, List.dropWhile_cons, hp] using this

theorem firstBad_none (W H : Int) (cs : List Capture)
    (h : ∀ c ∈ cs, procOk W H c = true) : firstBad W H cs = none := by
  induction cs with
  | nil => rfl
  | cons p cs ih =>
    have hp : procOk W H p = true := h p (List.mem_cons_self _ _)
    have := ih (fun q hq => h q (List.mem_cons_of_mem _ hq))
    simpa [firstBad, List.dropWhile_cons, hp] using this

theorem main_dirs (fmt : Nat → String) (w : World) (h : setupOk w = true) :
    (main fmt w).dirs = setupState w := by
  rw [main_of_setupOk fmt w h, passes_eq]
  split_ifs <;> rfl

theorem loopOut_ret (w : World) :
    (loopOut w).ret = if (loopOut w).failed then K4A_RESULT_FAILED else K4A_RESULT_SUCCEEDED :=
  captureLoop_ret _ _ _ _ _ _

theorem releaseCapture_events (c : Option Nat) :
    ∀ ev ∈ releaseCapture c, ofCaptureLoop ev = true := by
  cases c <;> simp [releaseCapture, ofCaptureLoop]

theorem releaseCapture_no_imwrite (c : Option Nat) :
    (releaseCapture c).filter isImwrite = [] := by
  cases c <;> simp [releaseCapture, isImwrite]

theorem imuLoop_no_imwrite (fmt : Nat → String) (f : Bool) (ss : List ImuSample) (ret : Int) :
    (imuLoop fmt f ss ret).2.filter isImwrite = [] :=
  filter_nil_of_forall (imuLoop_events fmt f ss ret)
    (by intro ev; cases ev <;> simp [ofImuLoop, isImwrite])

theorem setupTrace_no_imwrite (w : World) : (setupTrace w).filter isImwrite = [] :=
  filter_nil_of_forall (setupTrace_events w)
    (by intro ev; cases ev <;> simp [ofPrelude, isImwrite])

theorem passes_imwrites (fmt : Nat → String) (w : World) (t : List Event) (fs : Dirs) :
    (passes fmt w t fs).trace.filter isImwrite
      = t.filter isImwrite
        ++ (w.captures.takeWhile (procOk w.crop_width w.crop_height)).flatMap
            (expectedWrites w.crop_width w.crop_height) := by
  rw [passes_eq]
  split_ifs <;>
    simp [List.filter_append, loopOut_imwrites, releaseCapture_no_imwrite,
      imuLoop_no_imwrite, isImwrite]

theorem main_imwrites (fmt : Nat → String) (w : World) :
    (main fmt w).trace.filter isImwrite
      = if setupOk w then
          (w.captures.takeWhile (procOk w.crop_width w.crop_height)).flatMap
            (expectedWrites w.crop_width w.crop_height)
        else [] := by
  cases h : setupOk w
  · simp only [Bool.false_eq_true, if_false]
    rw [List.filter_eq_nil_iff]
    intro ev hev
    rcases main_of_not_setupOk fmt w h ev hev with h1 | h1
    · cases ev <;> simp [ofPrelude, isImwrite] at h1 ⊢
    · subst h1; simp [isImwrite]
  · simp [main_of_setupOk fmt w h, passes_imwrites, setupTrace_no_imwrite]

theorem takeWhile_split (W H : Int) (pre post : List Capture) (c : Capture)
    (hpre : ∀ p ∈ pre, procOk W H p = true) (hc : procOk W H c = false) :
    (pre ++ c :: post).takeWhile (procOk W H) = pre := by
  induction pre with
  | nil => simp [List.takeWhile, hc]
  | cons p pre ih =>
    have hp : procOk W H p = true := hpre p (List.mem_cons_self _ _)
    simp [List.takeWhile_cons, hp, ih (fun q hq => hpre q (List.mem_cons_of_mem _ hq))]

theorem procOk_hasBoth (W H : Int) (c : Capture) (h : procOk W H c = true) :
    hasBoth c = true := by
  rcases c with ⟨_ | img, d, co, tok⟩
  · simp [procOk] at h
  · simp only [procOk, Bool.and_eq_true] at h
    simp [hasBoth, h.1.1.1.1, h.1.1.1.2]

theorem throwsAt_hasBoth (W H : Int) (c : Capture) (h : throwsAt W H c = true) :
    hasBoth c = true := by
  rcases c with ⟨_ | img, d, co, tok⟩
  · simp [throwsAt] at h
  · simp only [throwsAt, Bool.and_eq_true] at h
    simp [hasBoth, h.1.1.1.1, h.1.1.1.2]

theorem main_thrown (fmt : Nat → String) (w : World) (h : setupOk w = true) :
    (main fmt w).thrown = (loopOut w).thrown := by
  rw [main_of_setupOk fmt w h, passes_eq]
  split_ifs with g <;> simp [g]

theorem main_ret (fmt : Nat → String) (w : World) (h : setupOk w = true)
    (ht : (loopOut w).thrown = false) :
    (main fmt w).ret
      = if (loopOut w).failed then K4A_RESULT_FAILED
        else if w.seek2Ok = false then K4A_RESULT_FAILED
        else if w.imuOpenOk = false then K4A_RESULT_SUCCEEDED
        else if w.imuEndFailed then K4A_RESULT_FAILED else K4A_RESULT_SUCCEEDED := by
  rw [main_of_setupOk fmt w h, passes_eq, ht]
  simp only [Bool.false_eq_true, if_false]
  split_ifs <;> simp_all [loopOut_ret, imuLoop_ret]

/-! ## Abort on a capture without both images (C3) -/

/-- C3: when the run enters the first loop and the capture stream is `pre`,
then a capture `c` lacking its colour image, its depth image or a non-zero
colour timestamp, then `post`, with every capture of `pre` processed without
failure, the image writes of the whole run are exactly the writes for `pre`
(none for `c`, none for `post`, nothing rewritten) and `main` returns
non-zero. -/
theorem C3_bad_capture_aborts (fmt : Nat → String) (w : World) (pre post : List Capture)
    (c : Capture) (hsetup : setupOk w = true) (hcaps : w.captures = pre ++ c :: post)
    (hpre : ∀ p ∈ pre, procOk w.crop_width w.crop_height p = true)
    (hbad : hasBoth c = false) :
    (main fmt w).trace.filter isImwrite
        = pre.flatMap (expectedWrites w.crop_width w.crop_height)
      ∧ (main fmt w).ret ≠ 0
      ∧ (main fmt w).thrown = false := by
  have hc : procOk w.crop_width w.crop_height c = false := by
    cases hp : procOk w.crop_width w.crop_height c
    · rfl
    · rw [procOk_hasBoth _ _ c hp] at hbad; cases hbad
  have hthr : throwsAt w.crop_width w.crop_height c = false := by
    cases hp : throwsAt w.crop_width w.crop_height c
    · rfl
    · rw [throwsAt_hasBoth _ _ c hp] at hbad; cases hbad
  have hfb := firstBad_split _ _ pre post c hpre hc
  have ht : (loopOut w).thrown = false := by
    rw [loopOut_thrown, hcaps, hfb]; exact hthr
  have hf : (loopOut w).failed = true := by
    rw [loopOut_failed, hcaps, hfb]; simp [hthr]
  refine ⟨?_, ?_, ?_⟩
  · rw [main_imwrites, hsetup, hcaps, takeWhile_split _ _ pre post c hpre hc]; rfl
  · rw [main_ret fmt w hsetup ht, hf]
    simp [K4A_RESULT_FAILED]
  · rw [main_thrown fmt w hsetup, ht]

/-! ## Decimal names are distinct for distinct timestamps -/

theorem digitVal_digitChar (k : Nat) (h : k < 10) : digitVal (Nat.digitChar k) = k := by
  interval_cases k <;> decide

theorem decimalValue_append (a b : List Char) (v : Nat) :
    (a ++ b).foldl (fun acc c => 10 * acc + digitVal c) v
      = b.foldl (fun acc c => 10 * acc + digitVal c)
          (a.foldl (fun acc c => 10 * acc + digitVal c) v) := by
  simp [List.foldl_append]

theorem toDigitsCore_append (fuel : Nat) : ∀ (n : Nat) (acc : List Char),
    Nat.toDigitsCore 10 fuel n acc = Nat.toDigitsCore 10 fuel n [] ++ acc := by
  induction fuel with
  | zero => intro n acc; simp [Nat.toDigitsCore]
  | succ fuel ih =>
    intro n acc
    simp only [Nat.toDigitsCore]
    split
    · simp
    · rw [ih _ (Nat.digitChar (n % 10) :: acc), ih _ [Nat.digitChar (n % 10)]]
      simp

theorem decimalValue_toDigitsCore (fuel : Nat) : ∀ n : Nat, n < fuel →
    decimalValue (Nat.toDigitsCore 10 fuel n []) = n := by
  induction fuel with
  | zero => intro n h; omega
  | succ fuel ih =>
    intro n h
    simp only [Nat.toDigitsCore]
    split
    · rename_i h0
      have hn : n % 10 = n := by omega
      have hd := digitVal_digitChar _ (Nat.mod_lt n (by decide : 0 < 10))
      rw [hn] at hd
      simp [decimalValue, hn, hd]
    · rename_i h0
      have hlt : n / 10 < fuel := by omega
      rw [toDigitsCore_append]
      have := ih (n / 10) hlt
      simp only [decimalValue] at this ⊢
      rw [decimalValue_append, this]
      simp [digitVal_digitChar _ (Nat.mod_lt n (by decide))]
      omega

theorem decimalValue_toString (n : Nat) : decimalValue (toString n).data = n :=
  decimalValue_toDigitsCore (n + 1) n (Nat.lt_succ_self n)

theorem pngName_injective : Function.Injective pngName := by
  intro a b h
  have h1 : (pngName a).data = (pngName b).data := by rw [h]
  simp only [pngName, String.data_append] at h1
  have h2 := List.append_cancel_right h1
  have h3 := congrArg decimalValue h2
  rwa [decimalValue_toString, decimalValue_toString] at h3

/-! ## File names (C6) and crop rectangle (C4) -/

theorem namesWritten_filter (d : Dir) (tr : List Event) :
    namesWritten d tr = namesWritten d (tr.filter isImwrite) := by
  induction tr with
  | nil => rfl
  | cons ev tr ih =>
    simp only [namesWritten] at ih
    cases ev <;> simp [namesWritten, isImwrite, ih, List.filterMap_cons]

theorem namesWritten_expected (d : Dir) (W H : Int) (cs : List Capture)
    (h : ∀ c ∈ cs, procOk W H c = true) :
    namesWritten d (cs.flatMap (expectedWrites W H))
      = cs.map (fun c => toString (tsOf c) ++ ".png") := by
  induction cs with
  | nil => rfl
  | cons c cs ih =>
    have hc := h c (List.mem_cons_self _ _)
    have ih1 := ih (fun q hq => h q (List.mem_cons_of_mem _ hq))
    simp only [namesWritten] at ih1
    rcases c with ⟨_ | img, dp, co, tok⟩
    · simp [procOk] at hc
    · cases d <;>
        simp [namesWritten, expectedWrites, List.filterMap_append, ih1, tsOf, pngName,
          List.filterMap_cons]

theorem takeWhile_procOk (W H : Int) (cs : List Capture) :
    ∀ c ∈ cs.takeWhile (procOk W H), procOk W H c = true :=
  fun _ hc => List.mem_takeWhile_imp hc

theorem main_namesWritten (fmt : Nat → String) (w : World) (hsetup : setupOk w = true)
    (d : Dir) :
    namesWritten d (main fmt w).trace
      = ((w.captures.takeWhile (procOk w.crop_width w.crop_height)).map tsOf).map pngName := by
  rw [namesWritten_filter, main_imwrites, hsetup]
  simp only [if_true]
  rw [namesWritten_expected d _ _ _ (takeWhile_procOk _ _ _), List.map_map]
  rfl

theorem setupState_rgb (w : World) (h : setupOk w = true) : (setupState w).rgb = true := by
  simp only [setupOk, Bool.and_eq_true, Bool.or_eq_true] at h
  obtain ⟨_, h5⟩ := h
  rcases h5 with h5 | ⟨h5, h6⟩
  · simp [setupState, setupDirs, h5]
  · cases hr : w.rgbDirExists <;> simp [setupState, setupDirs, hr, h5, h6]

/-- C6, as stated, fails. With two captures carrying the same colour
timestamp, both with both images, the run leaves one PNG pair, not two: the
second pair overwrites the first. With a file `old.png` under `rgb/` at start
and none under `depth/`, that file has no counterpart under `depth/` after the
run. With `rgb/` present and `depth/` absent at start the run leaves two PNG
files under `rgb/` and none under `depth/`. -/
theorem C6_file_pairs_counterexample :
    (setupOk sameTimestampWorld = true
        ∧ filesUnder sameTimestampWorld (main toString sameTimestampWorld) Dir.rgb
            = ["1000033.png"]
        ∧ (pngPairs sameTimestampWorld (main toString sameTimestampWorld)).length = 1
        ∧ ((sameTimestampWorld.captures.takeWhile
              (procOk sameTimestampWorld.crop_width sameTimestampWorld.crop_height)).filter
              hasBoth).length = 2)
      ∧ (setupOk staleFileWorld = true
        ∧ "old.png" ∈ filesUnder staleFileWorld (main toString staleFileWorld) Dir.rgb
        ∧ "old.png" ∉ filesUnder staleFileWorld (main toString staleFileWorld) Dir.depth)
      ∧ (setupOk rgbOnlyWorld = true
        ∧ filesUnder rgbOnlyWorld (main toString rgbOnlyWorld) Dir.rgb
            = ["1000033.png", "1033366.png"]
        ∧ filesUnder rgbOnlyWorld (main toString rgbOnlyWorld) Dir.depth = []
        ∧ pngPairs rgbOnlyWorld (main toString rgbOnlyWorld) = []) := by
  decide

/-- C6, amended: in a run that enters the first loop, with no PNG file under
`rgb/` at start and `depth/` present once the directory set-up is done: the
names passed to the writes under `rgb/` and under `depth/` are the same list,
for each capture fetched before the first failure (an exception raised by
OpenCV counting as a failure), in order, the decimal of its colour timestamp
followed by `.png`; every file under `rgb/` after the run has a file of the
same name under `depth/`; the number of PNG pairs is the number of distinct
colour timestamps of those captures, hence, when these timestamps are
pairwise distinct, the number of those captures that have both images and a
non-zero colour timestamp. -/
theorem C6_file_pairs (fmt : Nat → String) (w : World) (hsetup : setupOk w = true)
    (hfresh : initialFiles w Dir.rgb = [])
    (hdepth : (main fmt w).dirs.depth = true) :
    namesWritten Dir.rgb (main fmt w).trace
        = (w.captures.takeWhile (procOk w.crop_width w.crop_height)).map
            (fun c => toString (tsOf c) ++ ".png")
      ∧ namesWritten Dir.depth (main fmt w).trace = namesWritten Dir.rgb (main fmt w).trace
      ∧ (∀ n ∈ filesUnder w (main fmt w) Dir.rgb, n ∈ filesUnder w (main fmt w) Dir.depth)
      ∧ (pngPairs w (main fmt w)).length
          = (((w.captures.takeWhile (procOk w.crop_width w.crop_height)).map tsOf).dedup).length
      ∧ (((w.captures.takeWhile (procOk w.crop_width w.crop_height)).map tsOf).Nodup →
          (pngPairs w (main fmt w)).length
            = ((w.captures.takeWhile (procOk w.crop_width w.crop_height)).filter
                hasBoth).length) := by
  have hall : (w.captures.takeWhile (procOk w.crop_width w.crop_height)).filter hasBoth
      = w.captures.takeWhile (procOk w.crop_width w.crop_height) := by
    rw [List.filter_eq_self]
    intro c hc
    exact procOk_hasBoth _ _ c (takeWhile_procOk _ _ _ c hc)
  have hn := main_namesWritten fmt w hsetup
  have hrgb : (main fmt w).dirs.has Dir.rgb = true := by
    rw [main_dirs fmt w hsetup]; exact setupState_rgb w hsetup
  have hdep : (main fmt w).dirs.has Dir.depth = true := hdepth
  have fr : filesUnder w (main fmt w) Dir.rgb
      = (namesWritten Dir.rgb (main fmt w).trace).dedup := by
    simp [filesUnder, hrgb, hfresh]
  have fd : filesUnder w (main fmt w) Dir.depth
      = (initialFiles w Dir.depth ++ namesWritten Dir.depth (main fmt w).trace).dedup := by
    simp [filesUnder, hdep]
  have hsub : ∀ n ∈ filesUnder w (main fmt w) Dir.rgb,
      n ∈ filesUnder w (main fmt w) Dir.depth := by
    intro n h
    rw [fr, List.mem_dedup, hn] at h
    rw [fd, List.mem_dedup, hn]
    exact List.mem_append_right _ h
  have hpairs : pngPairs w (main fmt w) = filesUnder w (main fmt w) Dir.rgb := by
    rw [pngPairs, List.filter_eq_self]
    intro n h
    simpa using hsub n h
  have hlen : (pngPairs w (main fmt w)).length
      = (((w.captures.takeWhile (procOk w.crop_width w.crop_height)).map tsOf).dedup).length := by
    rw [hpairs, fr, hn, List.dedup_map_of_injective pngName_injective, List.length_map]
  refine ⟨?_, ?_, hsub, hlen, ?_⟩
  · rw [hn, List.map_map]; rfl
  · rw [hn, hn]
  · intro hnd
    rw [hlen, hnd.dedup, hall, List.length_map]

theorem wrapInt_of_range (x : Int) (h1 : INT_MIN ≤ x) (h2 : x ≤ INT_MAX) : wrapInt x = x := by
  simp only [INT_MIN, INT_MAX] at h1 h2
  unfold wrapInt
  omega

theorem tdiv_two_range (x : Int) (h1 : INT_MIN ≤ x) (h2 : x ≤ INT_MAX) :
    INT_MIN ≤ Int.tdiv x 2 ∧ Int.tdiv x 2 ≤ INT_MAX := by
  simp only [INT_MIN, INT_MAX] at h1 h2 ⊢
  rcases Int.le_total 0 x with h | h
  · rw [Int.tdiv_eq_ediv h (by decide)]
    omega
  · have hx : x = -(-x) := by omega
    rw [hx, Int.neg_tdiv, Int.tdiv_eq_ediv (by omega) (by decide)]
    omega

/-- C4: the image writes of a run are, for each capture processed, one write
of the colour image and one of the depth image, both cropped by the rectangle
`(left, top, W, H)` with `left = (colorWidth - W)/2` and
`top = (colorHeight - H)/2` computed on C `int`; whenever the two
subtractions stay within the range of `int`, these are the quotients of the
integer differences by 2, truncated toward zero. -/
theorem C4_crop_rectangle (fmt : Nat → String) (w : World) :
    (main fmt w).trace.filter isImwrite
        = (if setupOk w then
            (w.captures.takeWhile (procOk w.crop_width w.crop_height)).flatMap
              (expectedWrites w.crop_width w.crop_height)
          else [])
      ∧ ∀ colorWidth colorHeight W H : Int,
          INT_MIN ≤ colorWidth - W → colorWidth - W ≤ INT_MAX →
          INT_MIN ≤ colorHeight - H → colorHeight - H ≤ INT_MAX →
          cropRoi ⟨colorHeight, colorWidth⟩ W H = specCropRect colorWidth colorHeight W H
          ∧ specCropRect colorWidth colorHeight W H
            = ⟨Int.tdiv (colorWidth - W) 2, Int.tdiv (colorHeight - H) 2, W, H⟩ := by
  refine ⟨main_imwrites fmt w, ?_⟩
  intro cw ch W H h1 h2 h3 h4
  refine ⟨rfl, ?_⟩
  have a := tdiv_two_range _ h1 h2
  have b := tdiv_two_range _ h3 h4
  simp only [specCropRect, intDiv, intSub]
  rw [wrapInt_of_range _ h1 h2, wrapInt_of_range _ h3 h4, wrapInt_of_range _ a.1 a.2,
    wrapInt_of_range _ b.1 b.2]

/-! ## Validity of the crop rectangle (C5) -/

theorem any_false_of_forall {p q : Event → Bool} {tr : List Event}
    (h : ∀ ev ∈ tr, q ev = true) (hpq : ∀ ev, q ev = true → p ev = false) :
    tr.any p = false := by
  rw [List.any_eq_false]
  intro ev hev
  simp [hpq ev (h ev hev)]

theorem setupDirs_seeks (fs : Dirs) (a b : Bool) :
    (setupDirs fs a b).2.2.filter isSeek = [] := by
  cases hr : fs.rgb <;> cases a <;> cases b <;> simp [setupDirs, hr, isSeek]

theorem setupTrace_seeks (w : World) :
    (setupTrace w).filter isSeek = [Event.seekTimestamp true] := by
  simp [setupTrace, List.filter_append, setupDirs_seeks, isSeek]

theorem setupTrace_no_imu (w : World) : (setupTrace w).filter isImuPass = [] :=
  filter_nil_of_forall (setupTrace_events w)
    (by intro ev; cases ev <;> simp [ofPrelude, isImuPass])

theorem loopOut_no_seek (w : World) : (loopOut w).trace.filter isSeek = [] :=
  filter_nil_of_forall (loopOut_events w)
    (by intro ev; cases ev <;> simp [ofCaptureLoop, isSeek])

theorem loopOut_no_imu (w : World) : (loopOut w).trace.filter isImuPass = [] :=
  filter_nil_of_forall (loopOut_events w)
    (by intro ev; cases ev <;> simp [ofCaptureLoop, isImuPass])

theorem releaseCapture_no_seek (c : Option Nat) : (releaseCapture c).filter isSeek = [] := by
  cases c <;> simp [releaseCapture, isSeek]

theorem releaseCapture_no_imu (c : Option Nat) : (releaseCapture c).filter isImuPass = [] := by
  cases c <;> simp [releaseCapture, isImuPass]

theorem setupTrace_no_failure (w : World) : (setupTrace w).any extractionFailure = false :=
  any_false_of_forall (setupTrace_events w)
    (by intro ev; cases ev <;> simp [ofPrelude, extractionFailure])

theorem imuLoop_no_failure (fmt : Nat → String) (f : Bool) (ss : List ImuSample) (ret : Int) :
    (imuLoop fmt f ss ret).2.any extractionFailure = false :=
  any_false_of_forall (imuLoop_events fmt f ss ret)
    (by intro ev; cases ev <;> simp [ofImuLoop, extractionFailure])

theorem releaseCapture_no_failure (c : Option Nat) :
    (releaseCapture c).any extractionFailure = false := by
  cases c <;> simp [releaseCapture, extractionFailure]

theorem loopOut_failure_event (w : World) :
    (loopOut w).trace.any extractionFailure = (loopOut w).failed :=
  captureLoop_failure_event _ _ _ _ _ _

theorem loopOut_thrown_not_failed (w : World) (h : (loopOut w).thrown = true) :
    (loopOut w).failed = false := by
  rw [loopOut_thrown] at h
  rw [loopOut_failed]
  cases hb : firstBad w.crop_width w.crop_height w.captures with
  | none => rw [hb] at h; cases h
  | some c =>
    rw [hb] at h
    simp only at h ⊢
    rw [h]; rfl

/-- C8: in every run whose first loop reports a failure (`getRGB` fails or
yields timestamp zero, `getDepth` fails, or a capture fetch returns
`K4A_STREAM_RESULT_FAILED`), the only seek issued is the first one, `imu.txt`
is neither opened nor closed, nothing is appended to it, and no inertial
sample is fetched. -/
theorem C8_extraction_failure_skips_imu_pass (fmt : Nat → String) (w : World)
    (hfail : (main fmt w).trace.any extractionFailure = true) :
    (main fmt w).trace.filter isSeek = [Event.seekTimestamp true]
      ∧ (main fmt w).trace.filter isImuPass = [] := by
  cases hs : setupOk w
  · exfalso
    have hno : (main fmt w).trace.any extractionFailure = false := by
      rw [List.any_eq_false]
      intro ev hev
      rcases main_of_not_setupOk fmt w hs ev hev with h1 | h1
      · cases ev <;> simp [ofPrelude, extractionFailure] at h1 ⊢
      · subst h1; simp [extractionFailure]
    rw [hno] at hfail
    cases hfail
  · rw [main_of_setupOk fmt w hs, passes_eq] at hfail ⊢
    split_ifs at hfail ⊢ with h0 h1 h2 h3
    · simp [List.filter_append, setupTrace_seeks, setupTrace_no_imu, loopOut_no_seek,
        loopOut_no_imu]
    · simp [List.filter_append, setupTrace_seeks, setupTrace_no_imu, loopOut_no_seek,
        loopOut_no_imu, releaseCapture_no_seek, releaseCapture_no_imu, isSeek, isImuPass]
    all_goals
      exfalso
      simp [List.any_append, setupTrace_no_failure, loopOut_failure_event, h1,
        imuLoop_no_failure, releaseCapture_no_failure, extractionFailure] at hfail

theorem appendedTexts_append (a b : List Event) :
    appendedTexts (a ++ b) = appendedTexts a ++ appendedTexts b := by
  simp [appendedTexts, List.filterMap_append]

theorem appendedTexts_nil_of_forall {q : Event → Bool} {tr : List Event}
    (h : ∀ ev ∈ tr, q ev = true) (hq : ∀ ev, q ev = true → ofImuLoop ev = false) :
    appendedTexts tr = [] := by
  rw [appendedTexts, List.filterMap_eq_nil_iff]
  intro ev hev
  have := hq ev (h ev hev)
  cases ev <;> simp [ofImuLoop] at this ⊢

theorem main_appendedTexts (fmt : Nat → String) (w : World) (hs : setupOk w = true) :
    appendedTexts (main fmt w).trace
      = if (loopOut w).thrown then []
        else if (loopOut w).failed then []
        else if w.seek2Ok = false then []
        else if w.imuOpenOk = false then []
        else w.samples.map (imuLine fmt) := by
  have e1 : appendedTexts (setupTrace w) = [] :=
    appendedTexts_nil_of_forall (setupTrace_events w)
      (by intro ev; cases ev <;> simp [ofPrelude, ofImuLoop])
  have e2 : appendedTexts (loopOut w).trace = [] :=
    appendedTexts_nil_of_forall (loopOut_events w)
      (by intro ev; cases ev <;> simp [ofCaptureLoop, ofImuLoop])
  have e3 : appendedTexts (releaseCapture (loopOut w).capture) = [] :=
    appendedTexts_nil_of_forall (releaseCapture_events _)
      (by intro ev; cases ev <;> simp [ofCaptureLoop, ofImuLoop])
  have e4 : ∀ (ev : Event) (l : List Event), ofImuLoop ev = false →
      appendedTexts (ev :: l) = appendedTexts l := by
    intro ev l h
    cases ev <;> simp [ofImuLoop] at h <;> rfl
  have e5 : appendedTexts [] = [] := rfl
  rw [main_of_setupOk fmt w hs, passes_eq]
  split_ifs <;>
    simp [appendedTexts_append, e1, e2, e3, e4, e5, imuLoop_texts, ofImuLoop]

/-- C9: when the run enters the first loop (four user arguments; open,
calibration read, first seek and directory set-up succeed), every capture is
processed without failure or exception, the capture stream ends with
end-of-file, the
second seek and the opening of `imu.txt` succeed and the inertial stream ends
with end-of-file, `main` returns 0; if moreover the recording has no capture
and no inertial sample, no image is written, `imu.txt` is opened and nothing
is appended to it. -/
theorem C9_clean_run_returns_zero (fmt : Nat → String) (w : World)
    (hsetup : setupOk w = true)
    (hcaps : ∀ c ∈ w.captures, procOk w.crop_width w.crop_height c = true)
    (hend : w.captureEnd.failed = false) (hseek : w.seek2Ok = true)
    (hopen : w.imuOpenOk = true) (himu : w.imuEndFailed = false) :
    (main fmt w).ret = 0
      ∧ (w.captures = [] → w.samples = [] →
          (main fmt w).trace.filter isImwrite = []
          ∧ Event.ofOpen true ∈ (main fmt w).trace
          ∧ appendedTexts (main fmt w).trace = [])
      ∧ (main fmt w).thrown = false := by
  have hfb := firstBad_none _ _ _ hcaps
  have hf : (loopOut w).failed = false := by
    rw [loopOut_failed, hfb]; exact hend
  have ht : (loopOut w).thrown = false := by
    rw [loopOut_thrown, hfb]
  refine ⟨?_, ?_, ?_⟩
  · rw [main_ret fmt w hsetup ht, hf, hseek, hopen, himu]
    simp [K4A_RESULT_SUCCEEDED]
  · intro hc hsamp
    refine ⟨?_, ?_, ?_⟩
    · rw [main_imwrites, hsetup, hc]; rfl
    · rw [main_of_setupOk fmt w hsetup, passes_eq, ht, hf, hseek, hopen]
      simp
    · rw [main_appendedTexts fmt w hsetup, ht, hf, hseek, hopen, hsamp]
      simp
  · rw [main_thrown fmt w hsetup, ht]

/-! ## Text of a line of `imu.txt` -/

theorem digitChar_not_space (k : Nat) (h : k < 10) : isSpace (Nat.digitChar k) = false := by
  interval_cases k <;> decide

theorem toDigitsCore_not_space (fuel : Nat) : ∀ (n : Nat) (acc : List Char),
    (∀ c ∈ acc, isSpace c = false) → ∀ c ∈ Nat.toDigitsCore 10 fuel n acc, isSpace c = false := by
  induction fuel with
  | zero => intro n acc hacc; simpa [Nat.toDigitsCore] using hacc
  | succ fuel ih =>
    intro n acc hacc
    have hd : ∀ c ∈ Nat.digitChar (n % 10) :: acc, isSpace c = false := by
      intro c hc
      rcases List.mem_cons.mp hc with h | h
      · rw [h]; exact digitChar_not_space _ (Nat.mod_lt _ (by decide))
      · exact hacc c h
    simp only [Nat.toDigitsCore]
    split
    · exact hd
    · exact ih _ _ hd

theorem toDigitsCore_ne_nil (fuel : Nat) : ∀ (n : Nat) (acc : List Char),
    (fuel ≠ 0 ∨ acc ≠ []) → Nat.toDigitsCore 10 fuel n acc ≠ [] := by
  induction fuel with
  | zero => intro n acc h; simpa [Nat.toDigitsCore] using h
  | succ fuel ih =>
    intro n acc _
    simp only [Nat.toDigitsCore]
    split
    · simp
    · exact ih _ _ (Or.inr (by simp))

theorem toString_nat_data (n : Nat) : (toString n).data = Nat.toDigits 10 n := rfl

theorem isToken_toString (n : Nat) : isToken (toString n) = true := by
  simp only [isToken, toString_nat_data, Bool.and_eq_true, Bool.not_eq_true',
    List.isEmpty_eq_false, List.all_eq_true]
  refine ⟨toDigitsCore_ne_nil _ _ _ (Or.inl (by simp)), ?_⟩
  intro c hc
  exact toDigitsCore_not_space _ _ _ (by simp) c hc

theorem fieldsAux_token (tok : List Char) : ∀ (cur rest : List Char),
    (∀ c ∈ tok, isSpace c = false) →
    fieldsAux (tok ++ rest) cur = fieldsAux rest (tok.reverse ++ cur) := by
  induction tok with
  | nil => intro cur rest _; rfl
  | cons c tok ih =>
    intro cur rest h
    have hc : isSpace c = false := h c (List.mem_cons_self _ _)
    have e : fieldsAux (c :: tok ++ rest) cur = fieldsAux (tok ++ rest) (c :: cur) := by
      rw [List.cons_append, fieldsAux, if_neg (by simp [hc])]
    rw [e, ih _ _ (fun q hq => h q (List.mem_cons_of_mem _ hq))]
    simp

theorem fieldsAux_field (tok rest : List Char) (hne : tok ≠ [])
    (h : ∀ c ∈ tok, isSpace c = false) :
    fieldsAux (tok ++ ' ' :: rest) [] = tok :: fieldsAux rest [] := by
  rw [fieldsAux_token tok _ _ h]
  have hsp : isSpace ' ' = true := by decide
  simp [fieldsAux, hsp, hne]

theorem isToken_iff (s : String) (h : isToken s = true) :
    s.data ≠ [] ∧ ∀ c ∈ s.data, isSpace c = false := by
  simpa [isToken] using h

theorem imuLine_data (fmt : Nat → String) (s : ImuSample) :
    (imuLine fmt s).data
      = (toString s.acc_timestamp_usec).data ++ ' ' ::
        ((fmt s.acc_sample.v0).data ++ ' ' :: ((fmt s.acc_sample.v1).data ++ ' ' ::
        ((fmt s.acc_sample.v2).data ++ ' ' :: ((toString s.gyro_timestamp_usec).data ++ ' ' ::
        ((fmt s.gyro_sample.v0).data ++ ' ' :: ((fmt s.gyro_sample.v1).data ++ ' ' ::
        ((fmt s.gyro_sample.v2).data ++ ' ' :: ['\n']))))))) := by
  simp [imuLine, String.data_append]

theorem imuLine_fields (fmt : Nat → String) (hfmt : ∀ x, isToken (fmt x) = true)
    (s : ImuSample) :
    fields (imuLine fmt s)
      = [toString s.acc_timestamp_usec, fmt s.acc_sample.v0, fmt s.acc_sample.v1,
         fmt s.acc_sample.v2, toString s.gyro_timestamp_usec, fmt s.gyro_sample.v0,
         fmt s.gyro_sample.v1, fmt s.gyro_sample.v2] := by
  have t := fun n => isToken_iff _ (isToken_toString n)
  have f := fun x => isToken_iff _ (hfmt x)
  have hnl : isSpace '\n' = true := by decide
  rw [fields, imuLine_data,
    fieldsAux_field _ _ (t _).1 (t _).2, fieldsAux_field _ _ (f _).1 (f _).2,
    fieldsAux_field _ _ (f _).1 (f _).2, fieldsAux_field _ _ (f _).1 (f _).2,
    fieldsAux_field _ _ (t _).1 (t _).2, fieldsAux_field _ _ (f _).1 (f _).2,
    fieldsAux_field _ _ (f _).1 (f _).2, fieldsAux_field _ _ (f _).1 (f _).2]
  simp [fieldsAux, hnl]

theorem imuLine_newline (fmt : Nat → String) (hfmt : ∀ x, isToken (fmt x) = true)
    (s : ImuSample) :
    ∃ body : String, imuLine fmt s = body ++ "\n" ∧ '\n' ∉ body.data := by
  have t := fun n => isToken_iff _ (isToken_toString n)
  have f := fun x => isToken_iff _ (hfmt x)
  have hnl : isSpace '\n' = true := by decide
  have hno : ∀ (tok : String), (∀ c ∈ tok.data, isSpace c = false) → '\n' ∉ tok.data := by
    intro tok h hmem
    have := h _ hmem
    rw [hnl] at this
    cases this
  refine ⟨_, rfl, ?_⟩
  have h1 := hno _ (t s.acc_timestamp_usec).2
  have h2 := hno _ (t s.gyro_timestamp_usec).2
  have h3 := hno _ (f s.acc_sample.v0).2
  have h4 := hno _ (f s.acc_sample.v1).2
  have h5 := hno _ (f s.acc_sample.v2).2
  have h6 := hno _ (f s.gyro_sample.v0).2
  have h7 := hno _ (f s.gyro_sample.v1).2
  have h8 := hno _ (f s.gyro_sample.v2).2
  simp [String.data_append, h1, h2, h3, h4, h5, h6, h7, h8]

/-! ## The inertial log (C7) -/

theorem not_mem_of_forall {q : Event → Bool} {tr : List Event} {e : Event}
    (h : ∀ ev ∈ tr, q ev = true) (hq : q e = false) : e ∉ tr := by
  intro hmem
  rw [h e hmem] at hq
  cases hq

theorem main_reaches_imu (fmt : Nat → String) (w : World)
    (h : Event.ofOpen true ∈ (main fmt w).trace) :
    setupOk w = true ∧ (loopOut w).thrown = false ∧ (loopOut w).failed = false
      ∧ w.seek2Ok = true ∧ w.imuOpenOk = true := by
  have n1 : Event.ofOpen true ∉ setupTrace w := not_mem_of_forall (setupTrace_events w) rfl
  have n2 : Event.ofOpen true ∉ (loopOut w).trace := not_mem_of_forall (loopOut_events w) rfl
  have n3 : Event.ofOpen true ∉ releaseCapture (loopOut w).capture :=
    not_mem_of_forall (releaseCapture_events _) rfl
  cases hs : setupOk w
  · exfalso
    rcases main_of_not_setupOk fmt w hs _ h with h1 | h1
    · simp [ofPrelude] at h1
    · cases h1
  · rw [main_of_setupOk fmt w hs, passes_eq] at h
    split_ifs at h with h0 h1 h2 h3
    · simp [n1, n2] at h
    · simp [n1, n2, n3] at h
    · simp [n1, n2, n3] at h
    · simp [n1, n2, n3] at h
    · simp only [Bool.not_eq_true, Bool.not_eq_false] at h0 h1 h2 h3
      exact ⟨rfl, h0, h1, h2, h3⟩

theorem imuFetches_append (a b : List Event) :
    imuFetches (a ++ b) = imuFetches a ++ imuFetches b := by
  simp [imuFetches, List.filterMap_append]

theorem imuFetches_nil_of_forall {q : Event → Bool} {tr : List Event}
    (h : ∀ ev ∈ tr, q ev = true) (hq : ∀ ev, q ev = true → ofImuLoop ev = false) :
    imuFetches tr = [] := by
  rw [imuFetches, List.filterMap_eq_nil_iff]
  intro ev hev
  have := hq ev (h ev hev)
  cases ev <;> simp [ofImuLoop] at this ⊢

theorem imuLoop_fetches (fmt : Nat → String) (f : Bool) (ss : List ImuSample) (ret : Int) :
    imuFetches (imuLoop fmt f ss ret).2
      = List.replicate ss.length StreamResult.SUCCEEDED
        ++ [if f then StreamResult.FAILED else StreamResult.EOF] := by
  induction ss with
  | nil => cases f <;> simp [imuLoop, imuFetches]
  | cons s ss ih =>
    simp only [imuFetches] at ih
    simp [imuLoop, imuFetches, ih, List.replicate_succ]

theorem main_imuFetches (fmt : Nat → String) (w : World) (hs : setupOk w = true)
    (ht : (loopOut w).thrown = false)
    (hf : (loopOut w).failed = false) (h2 : w.seek2Ok = true) (h3 : w.imuOpenOk = true) :
    imuFetches (main fmt w).trace
      = List.replicate w.samples.length StreamResult.SUCCEEDED
        ++ [if w.imuEndFailed then StreamResult.FAILED else StreamResult.EOF] := by
  have e1 : imuFetches (setupTrace w) = [] :=
    imuFetches_nil_of_forall (setupTrace_events w)
      (by intro ev; cases ev <;> simp [ofPrelude, ofImuLoop])
  have e2 : imuFetches (loopOut w).trace = [] :=
    imuFetches_nil_of_forall (loopOut_events w)
      (by intro ev; cases ev <;> simp [ofCaptureLoop, ofImuLoop])
  have e3 : imuFetches (releaseCapture (loopOut w).capture) = [] :=
    imuFetches_nil_of_forall (releaseCapture_events _)
      (by intro ev; cases ev <;> simp [ofCaptureLoop, ofImuLoop])
  have e4 : ∀ (ev : Event) (l : List Event), ofImuLoop ev = false →
      imuFetches (ev :: l) = imuFetches l := by
    intro ev l h
    cases ev <;> simp [ofImuLoop] at h <;> rfl
  have e5 : imuFetches [] = [] := rfl
  rw [main_of_setupOk fmt w hs, passes_eq, ht, hf, h2, h3]
  simp [imuFetches_append, e1, e2, e3, e4, e5, imuLoop_fetches, ofImuLoop]

theorem takeWhile_replicate_succeeded (n : Nat) (r : StreamResult)
    (hr : r ≠ StreamResult.SUCCEEDED) :
    ((List.replicate n StreamResult.SUCCEEDED ++ [r]).takeWhile
        (fun x => x == StreamResult.SUCCEEDED)).length = n := by
  have hb : (r == StreamResult.SUCCEEDED) = false := by simpa using hr
  induction n with
  | zero => simp [List.takeWhile, hb]
  | succ n ih =>
    rw [List.replicate_succ, List.cons_append, List.takeWhile_cons]
    simp [ih, hr]

/-- C7: in every run that opens `imu.txt` (and so enters the second loop),
with a rendering of `float` that yields non-empty texts without white space:
the texts appended to `imu.txt` are, in stream order, one per inertial
sample; their number is the number of fetches returning success before the
first other result; and each text has exactly the eight
white-space-separated fields accTs ax ay az gyroTs gx gy gz, in that order,
and is a text without newline followed by one newline. -/
theorem C7_imu_log_lines (fmt : Nat → String) (w : World)
    (hfmt : ∀ x, isToken (fmt x) = true)
    (hopen : Event.ofOpen true ∈ (main fmt w).trace) :
    appendedTexts (main fmt w).trace = w.samples.map (imuLine fmt)
      ∧ (appendedTexts (main fmt w).trace).length
          = ((imuFetches (main fmt w).trace).takeWhile
              (fun r => r == StreamResult.SUCCEEDED)).length
      ∧ ∀ s : ImuSample,
          fields (imuLine fmt s)
            = [toString s.acc_timestamp_usec, fmt s.acc_sample.v0, fmt s.acc_sample.v1,
               fmt s.acc_sample.v2, toString s.gyro_timestamp_usec, fmt s.gyro_sample.v0,
               fmt s.gyro_sample.v1, fmt s.gyro_sample.v2]
          ∧ ∃ body : String, imuLine fmt s = body ++ "\n" ∧ '\n' ∉ body.data := by
  obtain ⟨hs, h0, hf, h2, h3⟩ := main_reaches_imu fmt w hopen
  have ht : appendedTexts (main fmt w).trace = w.samples.map (imuLine fmt) := by
    rw [main_appendedTexts fmt w hs, h0, hf, h2, h3]; simp
  refine ⟨ht, ?_, fun s => ⟨imuLine_fields fmt hfmt s, imuLine_newline fmt hfmt s⟩⟩
  rw [ht, main_imuFetches fmt w hs h0 hf h2 h3, takeWhile_replicate_succeeded]
  · simp
  · cases w.imuEndFailed <;> simp

/-! ## Close of the recording and release of captures (C10) -/

theorem main_open (fmt : Nat → String) (w : World)
    (h : Event.playbackOpen true ∈ (main fmt w).trace) : w.argc = 5 ∧ w.openOk = true := by
  unfold main at h
  simp only at h
  split at h
  · simp at h
  · rename_i h1
    split at h
    · simp [error_open_playback] at h
    · rename_i h2
      simp only [ne_eq, Decidable.not_not, Bool.not_eq_false] at h1 h2
      exact ⟨h1, h2⟩

theorem main_not_setupOk_form (fmt : Nat → String) (w : World) (hs : setupOk w = false)
    (h1 : w.argc = 5) (h2 : w.openOk = true) :
    ∃ init, (main fmt w).trace = init ++ [Event.playbackClose]
      ∧ ∀ ev ∈ init, ofPrelude ev = true := by
  have hev := setupDirs_events ⟨w.rgbDirExists, w.depthDirExists⟩ w.createRgbOk w.createDepthOk
  have hok := setupDirs_ok ⟨w.rgbDirExists, w.depthDirExists⟩ w.createRgbOk w.createDepthOk
  simp only [] at hok
  unfold main
  simp only [h1, h2, ne_eq, not_true_eq_false, if_false, Bool.true_eq_false]
  split
  · exact ⟨_, rfl, by simp [ofPrelude]⟩
  · rename_i h3
    split
    · exact ⟨_, rfl, by simp [ofPrelude]⟩
    · rename_i h4
      split
      · refine ⟨_, rfl, ?_⟩
        intro ev hmem
        simp only [List.mem_append, List.mem_cons, List.mem_singleton, List.not_mem_nil,
          or_false] at hmem
        rcases hmem with (h | h | h | h | h) | h
        all_goals first
          | exact hev ev h
          | (subst h; rfl)
      · rename_i h5
        exfalso
        simp only [Bool.not_eq_false] at h3 h4 h5
        rw [hok] at h5
        simp [setupOk, h1, h2, h3, h4, h5] at hs

theorem releasedHandles_nil_of_forall {q : Event → Bool} {tr : List Event}
    (h : ∀ ev ∈ tr, q ev = true) (hq : ∀ ev, q ev = true → ofCaptureLoop ev = false) :
    releasedHandles tr = [] := by
  rw [releasedHandles, List.filterMap_eq_nil_iff]
  intro ev hev
  have := hq ev (h ev hev)
  cases ev <;> simp [ofCaptureLoop] at this ⊢

theorem fetchedHandles_nil_of_forall {q : Event → Bool} {tr : List Event}
    (h : ∀ ev ∈ tr, q ev = true) (hq : ∀ ev, q ev = true → ofCaptureLoop ev = false) :
    fetchedHandles tr = [] := by
  rw [fetchedHandles, List.filterMap_eq_nil_iff]
  intro ev hev
  have := hq ev (h ev hev)
  cases ev <;> simp [ofCaptureLoop] at this ⊢

theorem prelude_not_captureLoop (ev : Event) (h : ofPrelude ev = true) :
    ofCaptureLoop ev = false := by
  cases ev <;> simp [ofPrelude, ofCaptureLoop] at h ⊢

theorem imuLoop_not_captureLoop (ev : Event) (h : ofImuLoop ev = true) :
    ofCaptureLoop ev = false := by
  cases ev <;> simp [ofImuLoop, ofCaptureLoop] at h ⊢

theorem fetchedHandles_releaseCapture (c : Option Nat) :
    fetchedHandles (releaseCapture c) = [] := by
  cases c <;> simp [releaseCapture, fetchedHandles]

/-- C10, as stated, fails: with crop size 2000 x 2000 on 1280 x 720 frames
the recording is opened, the first capture is fetched, OpenCV raises an
exception on the crop rectangle and the run ends there: the capture is never
released and the recording is never closed, although the end-of-file fetch
would store null in the handle. -/
theorem C10_exception_counterexample :
    Event.playbackOpen true ∈ (main toString bigCropWorld).trace
      ∧ bigCropWorld.captureEnd.nullsHandle = true
      ∧ (main toString bigCropWorld).thrown = true
      ∧ Event.cvException ⟨720, 1280⟩ ⟨-360, -640, 2000, 2000⟩
          ∈ (main toString bigCropWorld).trace
      ∧ Event.playbackClose ∉ (main toString bigCropWorld).trace
      ∧ fetchedHandles (main toString bigCropWorld).trace = [0]
      ∧ releasedHandles (main toString bigCropWorld).trace = [] := by
  decide

/-- C10, amended: in every run that has opened the recording and that no
exception of OpenCV ends, under the assumption that the non-success capture
fetch stores null in the capture handle: the last call of the run is the
close of the recording and no earlier call is a close; the handles passed to
`k4a_capture_release` are exactly the handles returned by successful fetches,
in the same order; and no handle occurs twice. -/
theorem C10_close_and_release_once (fmt : Nat → String) (w : World)
    (hopen : Event.playbackOpen true ∈ (main fmt w).trace)
    (hnull : w.captureEnd.nullsHandle = true)
    (hret : (main fmt w).thrown = false) :
    (∃ init, (main fmt w).trace = init ++ [Event.playbackClose]
        ∧ Event.playbackClose ∉ init)
      ∧ releasedHandles (main fmt w).trace = fetchedHandles (main fmt w).trace
      ∧ (fetchedHandles (main fmt w).trace).Nodup := by
  obtain ⟨h1, h2⟩ := main_open fmt w hopen
  cases hs : setupOk w
  · obtain ⟨init, hi, hp⟩ := main_not_setupOk_form fmt w hs h1 h2
    have r0 : releasedHandles init = [] :=
      releasedHandles_nil_of_forall hp prelude_not_captureLoop
    have f0 : fetchedHandles init = [] :=
      fetchedHandles_nil_of_forall hp prelude_not_captureLoop
    refine ⟨⟨init, hi, not_mem_of_forall hp rfl⟩, ?_, ?_⟩
    · rw [hi, releasedHandles_append, fetchedHandles_append, r0, f0]; rfl
    · rw [hi, fetchedHandles_append, f0]; simp [fetchedHandles]
  · have ht : (loopOut w).thrown = false := by
      rw [← main_thrown fmt w hs]; exact hret
    have hh := captureLoop_handles w.crop_width w.crop_height w.captureEnd w.captures
      K4A_RESULT_SUCCEEDED ⟨none, 0, 0, ⟨0, 0⟩, ⟨0, 0⟩⟩ hnull ht
    have hcn := fun hf => captureLoop_capture_none w.crop_width w.crop_height w.captureEnd
      w.captures K4A_RESULT_SUCCEEDED ⟨none, 0, 0, ⟨0, 0⟩, ⟨0, 0⟩⟩ hnull hf ht
    change releasedHandles ((loopOut w).trace ++ releaseCapture (loopOut w).capture)
        = fetchedHandles (loopOut w).trace
      ∧ ∃ n, fetchedHandles (loopOut w).trace = List.range' 0 n at hh
    change (loopOut w).failed = false → (loopOut w).capture = none at hcn
    obtain ⟨hrel, n, hfet⟩ := hh
    have c1 : Event.playbackClose ∉ setupTrace w :=
      not_mem_of_forall (setupTrace_events w) rfl
    have c2 : Event.playbackClose ∉ (loopOut w).trace :=
      not_mem_of_forall (loopOut_events w) rfl
    have c3 : Event.playbackClose ∉ releaseCapture (loopOut w).capture :=
      not_mem_of_forall (releaseCapture_events _) rfl
    have c4 : Event.playbackClose ∉ (imuLoop fmt w.imuEndFailed w.samples (loopOut w).ret).2 :=
      not_mem_of_forall (imuLoop_events _ _ _ _) rfl
    have r1 : releasedHandles (setupTrace w) = [] :=
      releasedHandles_nil_of_forall (setupTrace_events w) prelude_not_captureLoop
    have f1 : fetchedHandles (setupTrace w) = [] :=
      fetchedHandles_nil_of_forall (setupTrace_events w) prelude_not_captureLoop
    have r4 : releasedHandles (imuLoop fmt w.imuEndFailed w.samples (loopOut w).ret).2 = [] :=
      releasedHandles_nil_of_forall (imuLoop_events _ _ _ _) imuLoop_not_captureLoop
    have f4 : fetchedHandles (imuLoop fmt w.imuEndFailed w.samples (loopOut w).ret).2 = [] :=
      fetchedHandles_nil_of_forall (imuLoop_events _ _ _ _) imuLoop_not_captureLoop
    have f3 := fetchedHandles_releaseCapture (loopOut w).capture
    rw [releasedHandles_append] at hrel
    have hnd : (fetchedHandles (loopOut w).trace).Nodup := by
      rw [hfet]; exact List.nodup_range' 0 n
    have k1 : releasedHandles [Event.playbackClose] = [] := rfl
    have k2 : fetchedHandles [Event.playbackClose] = [] := rfl
    have k3 : releasedHandles [Event.seekTimestamp false, Event.playbackClose] = [] := rfl
    have k4 : fetchedHandles [Event.seekTimestamp false, Event.playbackClose] = [] := rfl
    have k5 : ∀ b, releasedHandles [Event.seekTimestamp true, Event.ofOpen b] = [] :=
      fun _ => rfl
    have k6 : ∀ b, fetchedHandles [Event.seekTimestamp true, Event.ofOpen b] = [] :=
      fun _ => rfl
    have k7 : releasedHandles [Event.ofClose] = [] := rfl
    have k8 : fetchedHandles [Event.ofClose] = [] := rfl
    have k9 : releasedHandles [Event.seekTimestamp true, Event.ofOpen false, Event.ofClose]
        = [] := rfl
    have k10 : fetchedHandles [Event.seekTimestamp true, Event.ofOpen false, Event.ofClose]
        = [] := rfl
    rw [main_of_setupOk fmt w hs, passes_eq, ht]
    simp only [Bool.false_eq_true, if_false]
    split_ifs with g1 g2 g3
    · refine ⟨⟨_, rfl, by simp [c1, c2, c3]⟩, ?_, ?_⟩
      · simp only [releasedHandles_append, fetchedHandles_append, r1, f1, f3, k1, k2,
          List.nil_append, List.append_nil, List.append_assoc, hrel]
      · simp only [fetchedHandles_append, f1, f3, k2, List.nil_append, List.append_nil]
        exact hnd
    all_goals
      have hc := hcn (by simpa using g1)
      simp only [hc, releaseCapture] at hrel c3 f3 ⊢
      have k0 : releasedHandles [] = [] := rfl
      rw [k0, List.append_nil] at hrel
    · refine ⟨⟨(setupTrace w ++ (loopOut w).trace) ++ [Event.seekTimestamp false],
        by simp, by simp [c1, c2]⟩, ?_, ?_⟩
      · simp only [releasedHandles_append, fetchedHandles_append, r1, f1, k3, k4,
          List.nil_append, List.append_nil, hrel]
      · simp only [fetchedHandles_append, f1, k4, List.nil_append, List.append_nil]
        exact hnd
    · refine ⟨⟨_, rfl, by simp [c1, c2]⟩, ?_, ?_⟩
      · simp only [releasedHandles_append, fetchedHandles_append, r1, f1, k9, k10, k1, k2, k0,
          f3, List.nil_append, List.append_nil, hrel]
      · simp only [fetchedHandles_append, f1, k10, k2, f3, List.nil_append, List.append_nil]
        exact hnd
    · refine ⟨⟨_, rfl, by simp [c1, c2, c4]⟩, ?_, ?_⟩
      · simp only [releasedHandles_append, fetchedHandles_append, r1, f1, k5, k6, k7, k8, k1,
          k2, k0, r4, f4, f3, List.nil_append, List.append_nil, hrel]
      · simp only [fetchedHandles_append, f1, k6, k8, k2, f4, f3, List.nil_append,
          List.append_nil]
        exact hnd

/-! ## Exit status and directory set-up (C1, C2) -/

/-- C1 fails on the code: with four user arguments, open, calibration read and
first seek succeeding, `rgb/` absent and its creation failing, the run stops
at the directory set-up and `main` returns 0. -/
theorem C1_directory_failure_returns_zero :
    Event.createDirectories Dir.rgb false ∈ (main toString dirFailWorld).trace
      ∧ (main toString dirFailWorld).trace
          = [Event.playbackOpen true, Event.recordingLength, Event.getCalibration true,
             Event.seekTimestamp true, Event.transformationCreate,
             Event.dirExists Dir.rgb false, Event.createDirectories Dir.rgb false,
             Event.playbackClose]
      ∧ (main toString dirFailWorld).ret = 0
      ∧ (main toString dirFailWorld).thrown = false := by
  decide

/-- C2 fails on the code: with `rgb/` present and `depth/` absent at start, the
directory set-up succeeds without creating `depth/`, and the first loop then
writes into `depth/`. -/
theorem C2_depth_directory_not_created :
    setupDirs ⟨true, false⟩ true true = (true, ⟨true, false⟩, [Event.dirExists Dir.rgb true])
      ∧ (main toString rgbOnlyWorld).dirs = ⟨true, false⟩
      ∧ Event.createDirectories Dir.depth true ∉ (main toString rgbOnlyWorld).trace
      ∧ namesWritten Dir.depth (main toString rgbOnlyWorld).trace
          = ["1000033.png", "1033366.png"]
      ∧ (main toString rgbOnlyWorld).ret = 0
      ∧ (main toString rgbOnlyWorld).thrown = false := by
  decide

/-- When `rgb/` is absent at start and the directory set-up succeeds, both
directories are present afterwards; when `rgb/` is present, the set-up
succeeds and leaves the directory state unchanged. -/
theorem setupDirs_state (fs : Dirs) (a b : Bool) :
    (fs.rgb = false → (setupDirs fs a b).1 = true → (setupDirs fs a b).2.1 = ⟨true, true⟩)
      ∧ (fs.rgb = true → (setupDirs fs a b).1 = true ∧ (setupDirs fs a b).2.1 = fs) := by
  cases hr : fs.rgb <;> cases a <;> cases b <;> simp [setupDirs, hr]

/-- The assumption of C10 is needed: when the end-of-file fetch leaves the
capture handle as it was, the handle of the last capture is released a second
time at label `error_capture`. -/
theorem stale_handle_released_twice :
    releasedHandles (main toString staleHandleWorld).trace = [0, 1, 1]
      ∧ fetchedHandles (main toString staleHandleWorld).trace = [0, 1] := by
  decide

theorem setupDirs_no_fatal (fs : Dirs) (a b : Bool) :
    (setupDirs fs a b).2.2.any fatalEvent = false := by
  cases hr : fs.rgb <;> cases a <;> cases b <;>
    simp [setupDirs, hr, fatalEvent, extractionFailure]

theorem setupTrace_no_fatal (w : World) : (setupTrace w).any fatalEvent = false := by
  simp [setupTrace, List.any_append, setupDirs_no_fatal, fatalEvent, extractionFailure]

theorem any_fatal_eq_of_captureLoop {tr : List Event}
    (h : ∀ ev ∈ tr, ofCaptureLoop ev = true) :
    tr.any fatalEvent = tr.any extractionFailure := by
  induction tr with
  | nil => rfl
  | cons ev tr ih =>
    have h1 := h ev (List.mem_cons_self _ _)
    have h2 := ih (fun q hq => h q (List.mem_cons_of_mem _ hq))
    have h3 : fatalEvent ev = extractionFailure ev := by
      cases ev <;> simp [ofCaptureLoop, fatalEvent] at h1 ⊢
    simp [List.any_cons, h2, h3]

theorem imuLoop_fatal (fmt : Nat → String) (f : Bool) (ss : List ImuSample) (ret : Int) :
    (imuLoop fmt f ss ret).2.any fatalEvent = f := by
  induction ss with
  | nil => cases f <;> simp [imuLoop, fatalEvent, extractionFailure]
  | cons s ss ih => simp [imuLoop, fatalEvent, extractionFailure, ih]

/-- Apart from a directory-creation failure, every fatal condition makes
`main` return non-zero: a run whose trace shows the usage line, a failed open,
calibration read or seek, a failure of the first loop, or a failed inertial
fetch does not return 0. -/
theorem main_ret_ne_zero_of_fatalEvent (fmt : Nat → String) (w : World)
    (h : (main fmt w).trace.any fatalEvent = true) : (main fmt w).ret ≠ 0 := by
  cases hs : setupOk w
  · have hok := setupDirs_ok ⟨w.rgbDirExists, w.depthDirExists⟩ w.createRgbOk w.createDepthOk
    have hnf := setupDirs_no_fatal ⟨w.rgbDirExists, w.depthDirExists⟩ w.createRgbOk
      w.createDepthOk
    simp only [] at hok
    unfold main at h ⊢
    simp only at h ⊢
    split
    · simp
    · rename_i h1
      rw [if_neg h1] at h
      split
      · simp [error_open_playback, K4A_RESULT_FAILED]
      · rename_i h2
        rw [if_neg h2] at h
        split
        · simp [error_open_playback, K4A_RESULT_FAILED]
        · rename_i h3
          rw [if_neg h3] at h
          split
          · simp [error_open_playback, K4A_RESULT_FAILED]
          · rename_i h4
            rw [if_neg h4] at h
            split
            · rename_i h5
              rw [if_pos h5] at h
              exfalso
              simp [error_open_playback, List.any_append, hnf, fatalEvent,
                extractionFailure] at h
            · rename_i h5
              exfalso
              simp only [ne_eq, Decidable.not_not, Bool.not_eq_false] at h1 h2 h3 h4 h5
              rw [hok] at h5
              simp [setupOk, h1, h2, h3, h4, h5] at hs
  · have e1 := setupTrace_no_fatal w
    have e2 : (loopOut w).trace.any fatalEvent = (loopOut w).failed := by
      rw [any_fatal_eq_of_captureLoop (loopOut_events w), loopOut_failure_event]
    have e3 : (releaseCapture (loopOut w).capture).any fatalEvent = false := by
      rw [any_fatal_eq_of_captureLoop (releaseCapture_events _), releaseCapture_no_failure]
    have ht0 : (loopOut w).thrown = false := by
      cases hthr : (loopOut w).thrown
      · rfl
      · exfalso
        rw [main_of_setupOk fmt w hs, passes_eq, hthr] at h
        simp [List.any_append, e1, e2, loopOut_thrown_not_failed w hthr] at h
    rw [main_ret fmt w hs ht0]
    rw [main_of_setupOk fmt w hs, passes_eq, ht0] at h
    simp only [Bool.false_eq_true, if_false] at h
    split_ifs at h ⊢ with g1 g2 g3 g4
    · simp [K4A_RESULT_FAILED]
    · simp [K4A_RESULT_FAILED]
    · exfalso
      simp [List.any_append, e1, e2, e3, g1, fatalEvent, extractionFailure] at h
    · simp [K4A_RESULT_FAILED]
    · exfalso
      simp [List.any_append, e1, e2, e3, g1, g4, imuLoop_fatal, fatalEvent,
        extractionFailure] at h

/-- Every run in which a directory creation fails returns 0. -/
theorem main_ret_zero_of_createDirectories_failure (fmt : Nat → String) (w : World) (d : Dir)
    (h : Event.createDirectories d false ∈ (main fmt w).trace) : (main fmt w).ret = 0 := by
  cases hs : setupOk w
  · unfold main at h ⊢
    simp only at h ⊢
    split
    · rename_i h1
      rw [if_pos h1] at h
      simp at h
    · rename_i h1
      rw [if_neg h1] at h
      split
      · rename_i h2
        rw [if_pos h2] at h
        simp [error_open_playback] at h
      · rename_i h2
        rw [if_neg h2] at h
        split
        · rename_i h3
          rw [if_pos h3] at h
          simp [error_open_playback] at h
        · rename_i h3
          rw [if_neg h3] at h
          split
          · rename_i h4
            rw [if_pos h4] at h
            simp [error_open_playback] at h
          · rename_i h4
            rw [if_neg h4] at h
            split
            · simp [error_open_playback, K4A_RESULT_SUCCEEDED]
            · rename_i h5
              exfalso
              have hok := setupDirs_ok ⟨w.rgbDirExists, w.depthDirExists⟩ w.createRgbOk
                w.createDepthOk
              simp only [ne_eq, Decidable.not_not, Bool.not_eq_false] at h1 h2 h3 h4 h5 hok
              rw [hok] at h5
              simp [setupOk, h1, h2, h3, h4, h5] at hs
  · exfalso
    have n1 : Event.createDirectories d false ∉ setupTrace w := by
      simp only [setupOk, Bool.and_eq_true, Bool.or_eq_true] at hs
      obtain ⟨_, h5⟩ := hs
      rcases h5 with h5 | ⟨h5, h6⟩
      · simp [setupTrace, setupDirs, h5]
      · cases hr : w.rgbDirExists <;> simp [setupTrace, setupDirs, hr, h5, h6]
    have n2 : Event.createDirectories d false ∉ (loopOut w).trace :=
      not_mem_of_forall (loopOut_events w) rfl
    have n3 : Event.createDirectories d false ∉ releaseCapture (loopOut w).capture :=
      not_mem_of_forall (releaseCapture_events _) rfl
    have n4 : Event.createDirectories d false
        ∉ (imuLoop fmt w.imuEndFailed w.samples (loopOut w).ret).2 :=
      not_mem_of_forall (imuLoop_events _ _ _ _) rfl
    rw [main_of_setupOk fmt w hs, passes_eq] at h
    split_ifs at h <;> simp [n1, n2, n3, n4] at h

/-- A run ended by an exception of OpenCV never closes the recording. -/
theorem main_thrown_no_close (fmt : Nat → String) (w : World)
    (h : (main fmt w).thrown = true) : Event.playbackClose ∉ (main fmt w).trace := by
  cases hs : setupOk w
  · exfalso
    unfold main at h
    simp only [error_open_playback] at h
    split_ifs at h
    have hok := setupDirs_ok ⟨w.rgbDirExists, w.depthDirExists⟩ w.createRgbOk w.createDepthOk
    simp only [] at hok
    rename_i h1 h2 h3 h4 h5
    simp only [ne_eq, Decidable.not_not, Bool.not_eq_false] at h1 h2 h3 h4 h5
    rw [hok] at h5
    simp [setupOk, h1, h2, h3, h4, h5] at hs
  · have ht : (loopOut w).thrown = true := by
      rw [← main_thrown fmt w hs]; exact h
    have c1 : Event.playbackClose ∉ setupTrace w :=
      not_mem_of_forall (setupTrace_events w) rfl
    have c2 : Event.playbackClose ∉ (loopOut w).trace :=
      not_mem_of_forall (loopOut_events w) rfl
    rw [main_of_setupOk fmt w hs, passes_eq, ht]
    simp [c1, c2]

/-! ## Instances on concrete runs -/

/-- Instance of C3: in `missingDepthWorld` the second capture has no depth
image; only the pair of the first capture is written and the exit status is
not 0. -/
theorem C3_bad_capture_aborts_witness :
    setupOk missingDepthWorld = true
      ∧ missingDepthWorld.captures
          = [goodCapture 1000033] ++ noDepthCapture 1033366 :: [goodCapture 1066699]
      ∧ (∀ p ∈ [goodCapture 1000033],
          procOk missingDepthWorld.crop_width missingDepthWorld.crop_height p = true)
      ∧ hasBoth (noDepthCapture 1033366) = false
      ∧ ((main toString missingDepthWorld).trace.filter isImwrite
            = [goodCapture 1000033].flatMap
                (expectedWrites missingDepthWorld.crop_width missingDepthWorld.crop_height)
          ∧ (main toString missingDepthWorld).ret ≠ 0
          ∧ (main toString missingDepthWorld).thrown = false) :=
  ⟨by decide, rfl, by decide, by decide,
    C3_bad_capture_aborts toString missingDepthWorld [goodCapture 1000033]
      [goodCapture 1066699] (noDepthCapture 1033366) (by decide) rfl (by decide) (by decide)⟩

/-- Instance of C4 on `demoWorld` and on a 1280 x 720 frame cropped to
640 x 480. -/
theorem C4_crop_rectangle_witness :
    (main toString demoWorld).trace.filter isImwrite
        = (if setupOk demoWorld then
            (demoWorld.captures.takeWhile
              (procOk demoWorld.crop_width demoWorld.crop_height)).flatMap
              (expectedWrites demoWorld.crop_width demoWorld.crop_height)
          else [])
      ∧ cropRoi ⟨720, 1280⟩ 640 480 = specCropRect 1280 720 640 480
      ∧ specCropRect 1280 720 640 480
          = ⟨Int.tdiv (1280 - 640) 2, Int.tdiv (720 - 480) 2, 640, 480⟩ :=
  ⟨(C4_crop_rectangle toString demoWorld).1,
    (C4_crop_rectangle toString demoWorld).2 1280 720 640 480
      (by decide) (by decide) (by decide) (by decide)⟩

/-- Instance of amended C6 on `demoWorld`: two PNG pairs for two captures with
distinct timestamps. -/
theorem C6_file_pairs_witness :
    setupOk demoWorld = true
      ∧ initialFiles demoWorld Dir.rgb = []
      ∧ (main toString demoWorld).dirs.depth = true
      ∧ ((demoWorld.captures.takeWhile
            (procOk demoWorld.crop_width demoWorld.crop_height)).map tsOf).Nodup
      ∧ namesWritten Dir.rgb (main toString demoWorld).trace
          = (demoWorld.captures.takeWhile
              (procOk demoWorld.crop_width demoWorld.crop_height)).map
              (fun c => toString (tsOf c) ++ ".png")
      ∧ namesWritten Dir.depth (main toString demoWorld).trace
          = namesWritten Dir.rgb (main toString demoWorld).trace
      ∧ (∀ n ∈ filesUnder demoWorld (main toString demoWorld) Dir.rgb,
          n ∈ filesUnder demoWorld (main toString demoWorld) Dir.depth)
      ∧ (pngPairs demoWorld (main toString demoWorld)).length
          = ((demoWorld.captures.takeWhile
              (procOk demoWorld.crop_width demoWorld.crop_height)).filter hasBoth).length :=
  ⟨by decide, by decide, by decide, by decide,
    (C6_file_pairs toString demoWorld (by decide) (by decide) (by decide)).1,
    (C6_file_pairs toString demoWorld (by decide) (by decide) (by decide)).2.1,
    (C6_file_pairs toString demoWorld (by decide) (by decide) (by decide)).2.2.1,
    (C6_file_pairs toString demoWorld (by decide) (by decide) (by decide)).2.2.2.2
      (by decide)⟩

/-- Instance of C7 on `demoWorld`, `float` values rendered as the decimal of
their bit pattern. -/
theorem C7_imu_log_lines_witness :
    (∀ x : Nat, isToken (toString x) = true)
      ∧ Event.ofOpen true ∈ (main toString demoWorld).trace
      ∧ appendedTexts (main toString demoWorld).trace = ["1000250 1 2 3 1000251 4 5 6 \n"]
      ∧ fields (imuLine toString demoSample)
          = ["1000250", "1", "2", "3", "1000251", "4", "5", "6"] :=
  ⟨isToken_toString, by decide,
    (C7_imu_log_lines toString demoWorld isToken_toString (by decide)).1,
    ((C7_imu_log_lines toString demoWorld isToken_toString (by decide)).2.2 demoSample).1⟩

/-- Instance of C8 on `missingDepthWorld`. -/
theorem C8_extraction_failure_skips_imu_pass_witness :
    (main toString missingDepthWorld).trace.any extractionFailure = true
      ∧ ((main toString missingDepthWorld).trace.filter isSeek = [Event.seekTimestamp true]
          ∧ (main toString missingDepthWorld).trace.filter isImuPass = []) :=
  ⟨by decide, C8_extraction_failure_skips_imu_pass toString missingDepthWorld (by decide)⟩

/-- Instance of C9 on the empty recording. -/
theorem C9_clean_run_returns_zero_witness :
    setupOk emptyWorld = true
      ∧ (∀ c ∈ emptyWorld.captures,
          procOk emptyWorld.crop_width emptyWorld.crop_height c = true)
      ∧ emptyWorld.captureEnd.failed = false ∧ emptyWorld.seek2Ok = true
      ∧ emptyWorld.imuOpenOk = true ∧ emptyWorld.imuEndFailed = false
      ∧ (main toString emptyWorld).ret = 0
      ∧ (main toString emptyWorld).trace.filter isImwrite = []
      ∧ Event.ofOpen true ∈ (main toString emptyWorld).trace
      ∧ appendedTexts (main toString emptyWorld).trace = []
      ∧ (main toString emptyWorld).thrown = false :=
  ⟨by decide, by decide, rfl, rfl, rfl, rfl,
    (C9_clean_run_returns_zero toString emptyWorld (by decide) (by decide) rfl rfl rfl rfl).1,
    ((C9_clean_run_returns_zero toString emptyWorld (by decide) (by decide) rfl rfl rfl
      rfl).2.1 rfl rfl).1,
    ((C9_clean_run_returns_zero toString emptyWorld (by decide) (by decide) rfl rfl rfl
      rfl).2.1 rfl rfl).2.1,
    ((C9_clean_run_returns_zero toString emptyWorld (by decide) (by decide) rfl rfl rfl
      rfl).2.1 rfl rfl).2.2,
    (C9_clean_run_returns_zero toString emptyWorld (by decide) (by decide) rfl rfl rfl
      rfl).2.2⟩

/-- Instance of amended C10 on `demoWorld`. -/
theorem C10_close_and_release_once_witness :
    Event.playbackOpen true ∈ (main toString demoWorld).trace
      ∧ demoWorld.captureEnd.nullsHandle = true
      ∧ (main toString demoWorld).thrown = false
      ∧ ((∃ init, (main toString demoWorld).trace = init ++ [Event.playbackClose]
            ∧ Event.playbackClose ∉ init)
          ∧ releasedHandles (main toString demoWorld).trace
              = fetchedHandles (main toString demoWorld).trace
          ∧ (fetchedHandles (main toString demoWorld).trace).Nodup) :=
  ⟨by decide, rfl, by decide,
    C10_close_and_release_once toString demoWorld (by decide) rfl (by decide)⟩

end ExportRGBD
